import Mathlib

/-!
Verification development for the multi-intent query resolution engine of the
fintech-mcp-demo repository (`ml_intent_classifier.py`, class
`ProductionIntentClassifier`).

The engine is embedded shallowly: text is `List Char`, Python floats that are
only ever parsed from decimal literals and compared are `ℚ`, the regex-driven
extractors are hand-rolled scanners that reproduce the leftmost, greedy,
non-overlapping semantics of `re.search` / `re.findall` / `str.replace` for the
concrete patterns appearing in the source, and the trained scikit-learn model
(vectorizer + one-vs-rest classifier + label binarizer) is abstracted as a
`LoadedModel`: its class list plus the per-query probability vector produced by
`predict_proba`.  Fallible paths (`raise ValueError`, index errors) are
modelled with `Except String`.
-/

/-! ### Character classes (ASCII, as used by Python `re` on this input space) -/

/-- Decimal digit, the `\d` class restricted to ASCII as matched here. -/
def isDigitA (c : Char) : Bool := '0' ≤ c && c ≤ '9'

/-- Uppercase ASCII letter, the `[A-Z]` class. -/
def isUpperA (c : Char) : Bool := 'A' ≤ c && c ≤ 'Z'

/-- Lowercase ASCII letter, the `[a-z]` class. -/
def isLowerA (c : Char) : Bool := 'a' ≤ c && c ≤ 'z'

/-- Python `\s`: space, tab, newline, carriage return, vertical tab, form feed. -/
def isPySpace (c : Char) : Bool :=
  c = ' ' || c = '\t' || c = '\n' || c = '\r' || c.toNat = 11 || c.toNat = 12

/-- Python `\w`: ASCII letters, digits and underscore. -/
def isWordChar (c : Char) : Bool :=
  isDigitA c || isUpperA c || isLowerA c || c = '_'

/-- ASCII lowering, as `str.lower()` acts on the ASCII queries of this system. -/
def toLowerChar (c : Char) : Char :=
  if isUpperA c then Char.ofNat (c.toNat + 32) else c

/-- Lowered text, `query.lower()`. -/
def lowerL (q : List Char) : List Char := q.map toLowerChar

/-! ### Substring search (`pat in s`) and replacement (`s.replace(pat, "")`) -/

/-- Does the text begin with the pattern?  Empty pattern always matches. -/
def startsWithL : List Char → List Char → Bool
  | _, [] => true
  | [], _ :: _ => false
  | c :: t, p :: ps => c = p && startsWithL t ps

/-- Python substring containment `pat in s` (empty pattern is contained). -/
def containsSub : List Char → List Char → Bool
  | [], pat => pat.isEmpty
  | c :: t, pat => startsWithL (c :: t) pat || containsSub t pat

/-- Fuelled worker for `replaceAll`; fuel `s.length` always suffices. -/
def replaceAllF : Nat → List Char → List Char → List Char
  | 0, s, _ => s
  | f + 1, s, pat =>
    if pat.isEmpty then s
    else if startsWithL s pat then replaceAllF f (s.drop pat.length) pat
    else
      match s with
      | [] => []
      | c :: t => c :: replaceAllF f t pat

/-- Python `s.replace(pat, "")`: delete every left-to-right non-overlapping
occurrence of `pat`. -/
def replaceAll (s pat : List Char) : List Char := replaceAllF s.length s pat

/-! ### Decimal parsing (`float(...)` on the matched groups) -/

/-- Value of a digit string. -/
def digitsVal (l : List Char) : Nat := l.foldl (fun a c => 10 * a + (c.toNat - 48)) 0

/-- Value of a decimal literal `ddd` or `ddd.fff` (the shapes produced by the
percentage and amount scanners), as `float(...)` reads them. -/
def parseDecRat (g : List Char) : ℚ :=
  let ip := g.takeWhile (fun c => !(c = '.'))
  let rest := g.dropWhile (fun c => !(c = '.'))
  match rest with
  | [] => mkRat (digitsVal ip : Int) 1
  | _ :: fr => mkRat ((digitsVal ip * 10 ^ fr.length + digitsVal fr : Nat) : Int) (10 ^ fr.length)

/-- `float(a.replace(",", ""))` for an amount group with optional thousands
separators. -/
def parseAmountRat (g : List Char) : ℚ := parseDecRat (g.filter (fun c => !(c = ',')))

/-! ### Percentage scanner: `re.findall(r"(\d+(?:\.\d+)?)\s*(?:%|percent)", s)`

A match attempt at a position takes the maximal digit run, an optional maximal
`.digits` fraction, maximal whitespace, then requires `%` or `percent`.  For
this pattern regex backtracking can never rescue a failed greedy attempt (a
shorter digit run is followed by a digit, which neither `\.`, `\s` nor
`%`/`percent` accept), so the greedy reading below is exact. -/

/-- Optional fractional part `(?:\.\d+)?` (greedy): returns (matched, rest). -/
def fracPart (l : List Char) : List Char × List Char :=
  match l with
  | '.' :: r =>
    let f := r.takeWhile isDigitA
    if f.isEmpty then ([], l) else ('.' :: f, r.dropWhile isDigitA)
  | _ => ([], l)

/-- Match attempt for the percentage pattern at the head of `l`; returns the
captured group and the rest of the text after the match. -/
def percentMatchAt (l : List Char) : Option (List Char × List Char) :=
  let d := l.takeWhile isDigitA
  if d.isEmpty then none
  else
    let r1 := l.dropWhile isDigitA
    let p := fracPart r1
    let r3 := p.2.dropWhile isPySpace
    match r3 with
    | '%' :: rest => some (d ++ p.1, rest)
    | 'p' :: 'e' :: 'r' :: 'c' :: 'e' :: 'n' :: 't' :: rest => some (d ++ p.1, rest)
    | _ => none

/-- Fuelled `findall` loop for the percentage pattern. -/
def percentScanF : Nat → List Char → List (List Char)
  | 0, _ => []
  | _ + 1, [] => []
  | f + 1, c :: rest =>
    match percentMatchAt (c :: rest) with
    | some (g, after) => g :: percentScanF f after
    | none => percentScanF f rest

/-- All percentage groups of the text, leftmost first (`re.findall`). -/
def percentScan (l : List Char) : List (List Char) := percentScanF l.length l

/-! ### Amount scanner:
`re.findall(r"(?:₹|rs\.?|inr|rupees?)?\s*(\d+(?:,\d{3})*(?:\.\d+)?)", s)`

The optional currency marker and `\s*` contain no digits, so they never change
which groups are captured nor where a match ends (the group always starts at a
digit and the match ends with the group); the scanner therefore looks for the
group alone. -/

/-- Greedy `(?:,\d{3})*`: repeatedly take a comma followed by exactly three
digits; returns (matched, rest). -/
def commaChunks : List Char → List Char × List Char
  | ',' :: a :: b :: c :: r =>
    if isDigitA a && isDigitA b && isDigitA c then
      let p := commaChunks r
      (',' :: a :: b :: c :: p.1, p.2)
    else ([], ',' :: a :: b :: c :: r)
  | l => ([], l)

/-- Match attempt for the amount pattern's capture group at the head of `l`. -/
def amountMatchAt (l : List Char) : Option (List Char × List Char) :=
  let d := l.takeWhile isDigitA
  if d.isEmpty then none
  else
    let r1 := l.dropWhile isDigitA
    let p := commaChunks r1
    let q := fracPart p.2
    some (d ++ p.1 ++ q.1, q.2)

/-- Fuelled `findall` loop for the amount pattern. -/
def amountScanF : Nat → List Char → List (List Char)
  | 0, _ => []
  | _ + 1, [] => []
  | f + 1, c :: rest =>
    match amountMatchAt (c :: rest) with
    | some (g, after) => g :: amountScanF f after
    | none => amountScanF f rest

/-- All amount groups of the text, leftmost first (`re.findall`). -/
def amountScan (l : List Char) : List (List Char) := amountScanF l.length l

/-! ### GSTIN scanner:
pattern `\b[0-9]{2}[A-Z]{5}[0-9]{4}[A-Z]{1}[A-Z0-9]{1}Z[A-Z0-9]{1}\b`,
used case-sensitively by `re.search` on the raw query and case-insensitively by
`re.sub(..., "", cleaned_query, flags=re.IGNORECASE)` on the lowered text. -/

/-- `[A-Z0-9]` class. -/
def isUpperDigit (c : Char) : Bool := isUpperA c || isDigitA c

/-- `[A-Z]` under `re.IGNORECASE`. -/
def isLetterCI (c : Char) : Bool := isUpperA c || isLowerA c

/-- `[A-Z0-9]` under `re.IGNORECASE`. -/
def isLetterDigitCI (c : Char) : Bool := isLetterCI c || isDigitA c

/-- Shape test for the fifteen characters of a GSTIN (case-sensitive). -/
def gstinShape (xs : List Char) : Bool :=
  xs.length = 15 &&
  isDigitA (xs.getD 0 ' ') && isDigitA (xs.getD 1 ' ') &&
  isUpperA (xs.getD 2 ' ') && isUpperA (xs.getD 3 ' ') && isUpperA (xs.getD 4 ' ') &&
  isUpperA (xs.getD 5 ' ') && isUpperA (xs.getD 6 ' ') &&
  isDigitA (xs.getD 7 ' ') && isDigitA (xs.getD 8 ' ') && isDigitA (xs.getD 9 ' ') &&
  isDigitA (xs.getD 10 ' ') &&
  isUpperA (xs.getD 11 ' ') && isUpperDigit (xs.getD 12 ' ') &&
  (xs.getD 13 ' ' = 'Z') && isUpperDigit (xs.getD 14 ' ')

/-- Shape test for a GSTIN under `re.IGNORECASE`. -/
def gstinShapeCI (xs : List Char) : Bool :=
  xs.length = 15 &&
  isDigitA (xs.getD 0 ' ') && isDigitA (xs.getD 1 ' ') &&
  isLetterCI (xs.getD 2 ' ') && isLetterCI (xs.getD 3 ' ') && isLetterCI (xs.getD 4 ' ') &&
  isLetterCI (xs.getD 5 ' ') && isLetterCI (xs.getD 6 ' ') &&
  isDigitA (xs.getD 7 ' ') && isDigitA (xs.getD 8 ' ') && isDigitA (xs.getD 9 ' ') &&
  isDigitA (xs.getD 10 ' ') &&
  isLetterCI (xs.getD 11 ' ') && isLetterDigitCI (xs.getD 12 ' ') &&
  (xs.getD 13 ' ' = 'Z' || xs.getD 13 ' ' = 'z') && isLetterDigitCI (xs.getD 14 ' ')

/-- The `\b` condition looking back at the previous character (`none` = start). -/
def prevNonWord : Option Char → Bool
  | none => true
  | some c => !(isWordChar c)

/-- The `\b` condition looking forward at the rest of the text. -/
def headNonWord : List Char → Bool
  | [] => true
  | c :: _ => !(isWordChar c)

/-- `re.search` for the GSTIN pattern: first match, scanning left to right with
the previous character threaded for the leading `\b`. -/
def gstinSearch : Option Char → List Char → Option (List Char)
  | _, [] => none
  | prev, c :: t =>
    if prevNonWord prev && gstinShape ((c :: t).take 15) && headNonWord ((c :: t).drop 15) then
      some ((c :: t).take 15)
    else gstinSearch (some c) t

/-- Fuelled worker for `re.sub(gstin, "", s, flags=re.IGNORECASE)`: every match
is deleted, scanning resumes after it. -/
def gstinSubCIF : Nat → Option Char → List Char → List Char
  | 0, _, l => l
  | f + 1, prev, l =>
    match l with
    | [] => []
    | c :: t =>
      if prevNonWord prev && gstinShapeCI (l.take 15) && headNonWord (l.drop 15) then
        gstinSubCIF f (some ((l.take 15).getLastD c)) (l.drop 15)
      else c :: gstinSubCIF f (some c) t

/-- Case-insensitive removal of every GSTIN-shaped token. -/
def gstinSubCI (prev : Option Char) (l : List Char) : List Char := gstinSubCIF l.length prev l

/-! ### City / date / ticket scanners -/

/-- `[A-Z][a-z]+`: one capitalized word; returns (word, rest). -/
def cityWord (l : List Char) : Option (List Char × List Char) :=
  match l with
  | [] => none
  | c :: t =>
    if isUpperA c then
      let lo := t.takeWhile isLowerA
      if lo.isEmpty then none else some (c :: lo, t.dropWhile isLowerA)
    else none

/-- After the literal keyword: `\s+([A-Z][a-z]+(?:\s+[A-Z][a-z]+)?)`, returning
the captured group (which keeps the inner whitespace of a two-word city). -/
def cityAfterKw (r : List Char) : Option (List Char) :=
  let sp := r.takeWhile isPySpace
  if sp.isEmpty then none
  else
    match cityWord (r.dropWhile isPySpace) with
    | none => none
    | some (w1, rest) =>
      let sp2 := rest.takeWhile isPySpace
      if sp2.isEmpty then some w1
      else
        match cityWord (rest.dropWhile isPySpace) with
        | some (w2, _) => some (w1 ++ sp2 ++ w2)
        | none => some w1

/-- `re.search(kw + r"\s+([A-Z][a-z]+(?:\s+[A-Z][a-z]+)?)", q)`: first match's
group, with `kw` the literal `from` or `to` (matched anywhere, no `\b`). -/
def citySearchK (kw : List Char) : List Char → Option (List Char)
  | [] => none
  | c :: t =>
    match (if startsWithL (c :: t) kw then cityAfterKw ((c :: t).drop kw.length) else none) with
    | some g => some g
    | none => citySearchK kw t

/-- Shape test for an ISO date `\d{4}-\d{2}-\d{2}` at the head of the text. -/
def dateShapeAt (l : List Char) : Bool :=
  decide (10 ≤ l.length) &&
  isDigitA (l.getD 0 ' ') && isDigitA (l.getD 1 ' ') && isDigitA (l.getD 2 ' ') &&
  isDigitA (l.getD 3 ' ') && (l.getD 4 ' ' = '-') &&
  isDigitA (l.getD 5 ' ') && isDigitA (l.getD 6 ' ') && (l.getD 7 ' ' = '-') &&
  isDigitA (l.getD 8 ' ') && isDigitA (l.getD 9 ' ')

/-- `re.search(r"(\d{4}-\d{2}-\d{2})", q)`: first date-shaped token. -/
def dateSearch : List Char → Option (List Char)
  | [] => none
  | c :: t => if dateShapeAt (c :: t) then some ((c :: t).take 10) else dateSearch t

/-- `re.search(r"\b(TIN\w+)\b", q, re.IGNORECASE)`: a word-boundary-anchored
`TIN` (any case) followed by at least one word character; the maximal `\w+` run
makes the trailing `\b` automatic.  The group keeps the original casing. -/
def tinSearch : Option Char → List Char → Option (List Char)
  | _, [] => none
  | prev, c :: t =>
    if prevNonWord prev && startsWithL (((c :: t).take 3).map toLowerChar) ['t', 'i', 'n'] then
      let w := ((c :: t).drop 3).takeWhile isWordChar
      if w.isEmpty then tinSearch (some c) t
      else some ((c :: t).take 3 ++ w)
    else tinSearch (some c) t

/-! ### Word count: `len(query.split())` -/

/-- Worker counting maximal non-whitespace runs; the flag records whether the
previous character was whitespace (or the start of the string). -/
def wcAux : Bool → List Char → Nat
  | _, [] => 0
  | atStart, c :: t => (if !(isPySpace c) && atStart then 1 else 0) + wcAux (isPySpace c) t

/-- `len(query.split())`. -/
def wordCount (l : List Char) : Nat := wcAux true l

/-! ### The entity bag (`extract_entities` result dictionary)

The Python function builds a dict.  Keys `gst_rates` / `gst_rate` are always
present in the final dict (a default of `[18.0]` / `18.0` is installed when no
percentage was found); `amounts` / `base_amount` / `amount` are present exactly
when the amount scan found something (and both scalar keys equal `amounts[0]`);
`total_amount` is present exactly when at least two amounts were found (value
`amounts[1]`).  The structure below therefore stores the rate list and the
amount list, with the scalar keys derived, and `entHasKey` reproduces key
presence in the dict. -/

structure EntityBag where
  gstin : Option String
  gst_rates : List ℚ
  amounts : List ℚ
  is_intra_state : Option Bool
  source_city : Option String
  destination_city : Option String
  travel_date : Option String
  tin : Option String
deriving Repr, DecidableEq

/-- Key presence in the Python entities dict. -/
def entHasKey (e : EntityBag) : String → Bool
  | "gstin" => e.gstin.isSome
  | "gst_rates" => true
  | "gst_rate" => true
  | "amounts" => !e.amounts.isEmpty
  | "base_amount" => !e.amounts.isEmpty
  | "amount" => !e.amounts.isEmpty
  | "total_amount" => (e.amounts.get? 1).isSome
  | "is_intra_state" => e.is_intra_state.isSome
  | "source_city" => e.source_city.isSome
  | "destination_city" => e.destination_city.isSome
  | "travel_date" => e.travel_date.isSome
  | "tin" => e.tin.isSome
  | _ => false

/-- The intra/inter state flag: `"inter" in query.lower()` wins, then
`"intra"`; the `interstate`/`intrastate` disjuncts of the source are redundant
but kept. -/
def intraFlag (lower : List Char) : Option Bool :=
  if containsSub lower ("inter".toList) || containsSub lower ("interstate".toList) then some false
  else if containsSub lower ("intra".toList) || containsSub lower ("intrastate".toList) then some true
  else none

/-- `extract_entities`: GSTIN first (removed from the lowered text), then
percentages (each group `g` removed as the literal substrings `g%` and
`g percent`), then amounts from the stripped text; cities, date and ticket id
are scanned independently on the raw query. -/
def extractEntities (q : List Char) : EntityBag :=
  let lower := lowerL q
  let gstin? := gstinSearch none q
  let cleaned1 := match gstin? with
    | some _ => gstinSubCI none lower
    | none => lower
  let pcts := percentScan cleaned1
  let cleaned2 := pcts.foldl
    (fun acc m => replaceAll (replaceAll acc (m ++ ['%'])) (m ++ (' ' :: "percent".toList)))
    cleaned1
  let amounts := (amountScan cleaned2).map parseAmountRat
  let rates := if pcts.isEmpty then [(18 : ℚ)] else pcts.map parseDecRat
  { gstin := gstin?.map List.asString
    gst_rates := rates
    amounts := amounts
    is_intra_state := intraFlag lower
    source_city := (citySearchK ("from".toList) q).map List.asString
    destination_city := (citySearchK ("to".toList) q).map List.asString
    travel_date := (dateSearch q).map List.asString
    tin := (tinSearch none q).map List.asString }

/-! ### Intent lexicon (`_load_intent_mappings`), transcribed verbatim,
in the source dict's insertion order. -/

structure IntentConfig where
  name : String
  tool : String
  required_params : List String
  keywords : List String
  multiTriggers : List String
deriving Repr, DecidableEq

def intentConfigs : List IntentConfig :=
  [ { name := "calculate_gst", tool := "calculate_gst",
      required_params := ["base_amount", "gst_rate"],
      keywords := ["calculate gst", "add gst", "gst on", "apply gst",
                   "gst for", "add tax", "gst amount", "how much gst",
                   "compute gst", "find gst", "what is gst", "show gst"],
      multiTriggers := ["calculate gst", "compute gst", "find gst", "add gst", "gst on"] },
    { name := "reverse_gst", tool := "reverse_calculate_gst",
      required_params := ["total_amount", "gst_rate"],
      keywords := ["reverse gst", "remove gst", "exclude gst", "before gst",
                   "without gst", "inclusive gst", "gst included",
                   "base price", "base amount", "excluding"],
      multiTriggers := ["reverse gst", "remove gst", "exclude gst", "without gst", "base price"] },
    { name := "gst_breakdown", tool := "gst_breakdown",
      required_params := ["base_amount", "gst_rate"],
      keywords := ["breakdown", "gst breakdown", "split gst", "cgst",
                   "sgst", "igst", "tax split", "show breakdown",
                   "components", "show cgst", "show sgst"],
      multiTriggers := ["gst breakdown", "show breakdown", "split gst", "cgst", "sgst", "igst"] },
    { name := "compare_rates", tool := "compare_gst_rates",
      required_params := ["base_amount", "rates"],
      keywords := ["compare gst", "compare rates", "which gst rate",
                   "difference between", "rate comparison", "compare",
                   "which rate", "better rate"],
      multiTriggers := ["compare gst", "compare rates", "rate comparison", "which rate", "difference between"] },
    { name := "validate_gstin", tool := "validate_gstin",
      required_params := ["gstin"],
      keywords := ["validate gstin", "check gstin", "gstin valid",
                   "verify gstin", "is this gstin valid", "validate",
                   "verify", "check"],
      multiTriggers := ["validate gstin", "verify gstin", "check gstin", "gstin valid"] },
    { name := "company_guide", tool := "get_company_onboarding_guide",
      required_params := [],
      keywords := ["company onboarding", "register company", "company registration",
                   "how to onboard company", "start company", "onboard organization",
                   "company setup", "register my company", "register a company",
                   "company register", "setting up a company", "set up company"],
      multiTriggers := ["company onboarding", "register company", "company registration",
                        "register my company", "register a company", "start company",
                        "company setup", "company register", "set up company",
                        "registration process"] },
    { name := "company_documents", tool := "get_company_required_documents",
      required_params := [],
      keywords := ["documents needed", "required documents", "company documents",
                   "documents for company", "what documents", "document checklist"],
      multiTriggers := ["required documents", "document checklist", "what documents", "documents needed"] },
    { name := "company_field", tool := "get_validation_formats",
      required_params := [],
      keywords := ["pan number", "gst number", "mandatory fields",
                   "field format", "validation format", "format"],
      multiTriggers := ["pan number", "mandatory fields", "field format", "validation format"] },
    { name := "company_process", tool := "get_onboarding_faq",
      required_params := [],
      keywords := ["how long", "timeline", "processing time",
                   "approval time", "how many days", "duration"],
      multiTriggers := ["processing time", "approval time", "how many days", "how long does", "timeline"] },
    { name := "bank_guide", tool := "get_bank_onboarding_guide",
      required_params := [],
      keywords := ["bank onboarding", "register bank", "bank registration",
                   "add bank", "supported banks", "bank account", "connect bank"],
      multiTriggers := ["bank onboarding", "register bank", "add bank", "supported banks"] },
    { name := "vendor_guide", tool := "get_vendor_onboarding_guide",
      required_params := [],
      keywords := ["vendor", "supplier", "seller", "distributor", "vendor onboarding"],
      multiTriggers := ["vendor onboarding", "add vendor", "register vendor", "supplier onboarding"] },
    { name := "redbus_search", tool := "redbus_search_redirect",
      required_params := ["source_city", "destination_city"],
      keywords := ["book bus", "search bus", "find bus", "bus from", "buses from",
                   "bus tickets", "available buses", "bus timings", "bus schedule",
                   "bus seat", "sleeper bus", "AC bus", "overnight bus",
                   "plan my journey", "bus to", "travel by bus"],
      multiTriggers := ["book bus", "search bus", "bus from", "find bus", "bus tickets"] },
    { name := "redbus_booking", tool := "redbus_booking_redirect",
      required_params := ["tin"],
      keywords := ["view booking", "check booking", "my booking", "my ticket",
                   "booking details", "ticket details", "booking id", "TIN",
                   "manage booking", "reservation", "retrieve booking"],
      multiTriggers := ["view booking", "check booking", "booking id", "my ticket", "TIN"] },
    { name := "redbus_offers", tool := "redbus_offers_redirect",
      required_params := [],
      keywords := ["redbus offers", "bus offers", "bus deals", "redbus discount",
                   "promo code", "coupon", "cashback", "cheap bus", "bus sale",
                   "redbus coupon", "save money", "redbus deals"],
      multiTriggers := ["redbus offers", "redbus discount", "promo code", "bus deals", "cashback"] },
    { name := "redbus_tracking", tool := "redbus_tracking_redirect",
      required_params := ["tin"],
      keywords := ["track bus", "track my bus", "live location", "bus location",
                   "where is my bus", "bus tracking", "real time tracking",
                   "bus ETA", "is bus on time", "bus arrived", "current position"],
      multiTriggers := ["track bus", "live location", "bus tracking", "where is my bus", "bus ETA"] },
    { name := "redbus_routes", tool := "get_popular_routes",
      required_params := [],
      keywords := ["popular routes", "top routes", "common routes", "best routes",
                   "most booked routes", "trending routes", "popular destinations",
                   "route list", "where can I go by bus", "cities connected",
                   "bus routes", "route suggestions"],
      multiTriggers := ["popular routes", "top routes", "bus routes", "route list", "cities connected"] },
    { name := "redbus_open", tool := "open_redbus",
      required_params := [],
      keywords := ["open redbus", "launch redbus", "go to redbus", "redbus app",
                   "redbus website", "visit redbus", "redbus.in", "start redbus",
                   "navigate to redbus", "redbus homepage", "open bus booking"],
      multiTriggers := ["open redbus", "launch redbus", "go to redbus", "redbus app", "redbus website"] } ]

/-- Required-parameter list of the intent owning a tool (tools are unique). -/
def requiredParamsOfTool (t : String) : List String :=
  match intentConfigs.find? (fun c => c.tool = t) with
  | some c => c.required_params
  | none => []

/-! ### The loaded model and the hybrid intent detector (`predict_intents`) -/

/-- A loaded trained model: the label binarizer's class list and, for each
query, the probability vector `predict_proba` produces for it. -/
structure LoadedModel where
  classes : List String
  probaOf : List Char → List ℚ

/-- The word-count-adaptive probability threshold: `0.25` over fifteen words,
`0.30` over ten, else `0.35` (written via `mkRat` so that comparisons reduce
inside the kernel). -/
def adaptiveThreshold (q : List Char) : ℚ :=
  let w := wordCount q
  if 15 < w then mkRat 1 4 else if 10 < w then mkRat 3 10 else mkRat 7 20

/-- The thresholding loop `for idx, prob in enumerate(probabilities)`: collect
`classes_[idx]` for every probability strictly above the threshold, erroring
(as Python indexing would) only if a selected index falls outside the class
list. -/
def selectAbove (t : ℚ) : List ℚ → List String → Except String (List String)
  | [], _ => Except.ok []
  | p :: ps, cs =>
    if t < p then
      match cs with
      | [] => Except.error "index out of bounds"
      | c :: cs' =>
        match selectAbove t ps cs' with
        | Except.error e => Except.error e
        | Except.ok r => Except.ok (c :: r)
    else
      match cs with
      | [] => selectAbove t ps []
      | _ :: cs' => selectAbove t ps cs'

/-- `np.argmax`: index of the first maximal entry (`none` on an empty vector,
where numpy raises). -/
def argmaxGo (bi : Nat) (bv : ℚ) (i : Nat) : List ℚ → Nat
  | [] => bi
  | y :: t => if bv < y then argmaxGo i y (i + 1) t else argmaxGo bi bv (i + 1) t

/-- First-maximum index of a probability vector. -/
def argmaxIdx : List ℚ → Option Nat
  | [] => none
  | x :: t => some (argmaxGo 0 x 1 t)

/-- Step 1 of `predict_intents`: threshold the probabilities; if nothing
clears, force-select the single highest-probability class. -/
def mlPredicted (m : LoadedModel) (q : List Char) : Except String (List String) :=
  match selectAbove (adaptiveThreshold q) (m.probaOf q) m.classes with
  | Except.error e => Except.error e
  | Except.ok sel =>
    if sel.isEmpty then
      match argmaxIdx (m.probaOf q) with
      | none => Except.error "attempt to get argmax of an empty sequence"
      | some i =>
        match m.classes.get? i with
        | none => Except.error "index out of bounds"
        | some c => Except.ok [c]
    else Except.ok sel

/-- The conjunction markers gating trigger scanning. -/
def multiIndicators : List String :=
  [" and ", " also ", " then ", " additionally ", " as well as ", " along with "]

/-- Does the lowered query contain a conjunction marker? -/
def hasMultiIndicator (lower : List Char) : Bool :=
  multiIndicators.any (fun s => containsSub lower s.toList)

/-- The trigger-matched intents: scanned only when a conjunction marker is
present, in lexicon order, each intent at most once. -/
def triggerMatchedList (lower : List Char) : List String :=
  if hasMultiIndicator lower then
    (intentConfigs.filter
      (fun c => c.multiTriggers.any (fun t => containsSub lower t.toList))).map
      (fun c => c.name)
  else []

/-- The full `keyword_matched` list: trigger matches first (when gated in),
then every intent with some keyword in the query that is not already listed. -/
def keywordMatchedList (lower : List Char) : List String :=
  intentConfigs.foldl
    (fun acc c =>
      if (c.keywords.any (fun k => containsSub lower k.toList)) && !(acc.contains c.name)
      then acc ++ [c.name] else acc)
    (triggerMatchedList lower)

/-- First-occurrence deduplication.  The source computes
`list(set(predicted + keyword_matched))`, whose element order is unspecified
by Python; every theorem below that goes through this branch depends only on
the members of the result, and every concrete evaluation feeds it at most one
distinct element, so this fixed order is harmless. -/
def dedupGo [BEq α] (seen : List α) : List α → List α
  | [] => []
  | a :: t => if seen.contains a then dedupGo seen t else a :: dedupGo (a :: seen) t

/-- First-occurrence deduplication, entry point. -/
def pyDedup (l : List String) : List String := dedupGo [] l

/-- The merge of classifier predictions with keyword matches: when
`keyword_matched` has at least two members the merged list is keyword-matched
intents first, then the remaining predictions; otherwise the deduplicated
union. -/
def mergeCombined (predicted km : List String) : List String :=
  if 2 ≤ km.length then km ++ predicted.filter (fun p => !(km.contains p))
  else pyDedup (predicted ++ km)

/-- Disambiguating phrases for Rule A (documents). -/
def docSignals : List String := ["document", "checklist", "what documents", "required documents"]

/-- Disambiguating phrases for Rule A (process). -/
def processSignals : List String :=
  ["how long", "timeline", "processing time", "approval", "how many days", "duration"]

/-- Disambiguating phrases for Rule B. -/
def calcSignals : List String :=
  ["calculate gst", "compute gst", "find gst", "add gst", "gst amount",
   "how much gst", "and calculate", "also calculate"]

/-- Is some phrase of the list contained in the lowered query? -/
def anySignal (lower : List Char) (sigs : List String) : Bool :=
  sigs.any (fun s => containsSub lower s.toList)

/-- `_resolve_intent_conflicts`: Rule A drops the company sub-intents when
`company_guide` is present without explicit document/process phrasing; Rule B
drops `calculate_gst` when `gst_breakdown` is present without an explicit
calculation phrase. -/
def resolveConflicts (lower : List Char) (intents : List String) : List String :=
  let r1 :=
    if intents.contains "company_guide" then
      let a := if !(anySignal lower docSignals)
               then intents.filter (fun i => !(i = "company_documents")) else intents
      if !(anySignal lower processSignals)
      then a.filter (fun i => !(i = "company_process")) else a
    else intents
  if r1.contains "gst_breakdown" && r1.contains "calculate_gst" then
    if !(anySignal lower calcSignals)
    then r1.filter (fun i => !(i = "calculate_gst")) else r1
  else r1

/-- `predict_intents`: ML prediction, keyword enhancement, merge, conflict
resolution, truncation to three intents. -/
def predictIntents (m : LoadedModel) (q : List Char) : Except String (List String) :=
  match mlPredicted m q with
  | Except.error e => Except.error e
  | Except.ok pred =>
    let lower := lowerL q
    Except.ok ((resolveConflicts lower (mergeCombined pred (keywordMatchedList lower))).take 3)

/-! ### Tool-call planner and full pipeline (`process_query`) -/

/-- A parameter value in a tool-call spec: Python number, string, boolean,
rate list, or `None`. -/
inductive PVal where
  | num : ℚ → PVal
  | str : String → PVal
  | bool : Bool → PVal
  | rlist : List ℚ → PVal
  | null : PVal
deriving Repr, DecidableEq

/-- One tool-call spec `{"tool_name": ..., "parameters": {...}}`; the
parameter dict is a key-ordered association list. -/
structure ToolCall where
  tool_name : String
  parameters : List (String × PVal)
deriving Repr, DecidableEq

/-- Python truthiness of an optional float (`None` and `0.0` are falsy). -/
def qTruthy : Option ℚ → Bool
  | some a => decide (¬(a = 0))
  | none => false

/-- Python truthiness of an optional string (`None` and `""` are falsy). -/
def optStrTruthy : Option String → Bool
  | some s => decide (¬(s = ""))
  | none => false

/-- `entities.get("amount") or entities.get("base_amount")`: both keys hold
`amounts[0]` whenever either is present, so the chain is just the head of the
amount list. -/
def amountVal (e : EntityBag) : Option ℚ := e.amounts.head?

/-- `entities.get("total_amount")`: present iff a second amount was found. -/
def totalAmountVal (e : EntityBag) : Option ℚ := e.amounts.get? 1

/-- `Option String` parameter value (`None` when absent). -/
def optPV : Option String → PVal
  | some s => PVal.str s
  | none => PVal.null

/-- GST calculation branch: gated on the intent and a truthy amount; one call
per extracted rate, except that a detected comparison intent collapses the
fan-out to a single call on the first rate. -/
def branchCalc (d : List String) (e : EntityBag) : List ToolCall :=
  if d.contains "calculate_gst" && qTruthy (amountVal e) then
    if d.contains "compare_rates" then
      [⟨"calculate_gst",
        [("base_amount", PVal.num (e.amounts.headD 0)),
         ("gst_rate", PVal.num (e.gst_rates.headD 0))]⟩]
    else
      e.gst_rates.map (fun rate =>
        ⟨"calculate_gst",
         [("base_amount", PVal.num (e.amounts.headD 0)),
          ("gst_rate", PVal.num rate)]⟩)
  else []

/-- Reverse GST branch: `amt = total_amount if total_amount else amount`,
emitted only when that value is truthy. -/
def branchReverse (d : List String) (e : EntityBag) : List ToolCall :=
  if d.contains "reverse_gst" then
    let amt : Option ℚ :=
      match totalAmountVal e with
      | some t => if t = 0 then amountVal e else some t
      | none => amountVal e
    if qTruthy amt then
      [⟨"reverse_calculate_gst",
        [("total_amount", PVal.num (amt.getD 0)),
         ("gst_rate", PVal.num (e.gst_rates.headD 0))]⟩]
    else []
  else []

/-- GST breakdown branch; the state-locality flag is forwarded only when the
entity is present. -/
def branchBreakdown (d : List String) (e : EntityBag) : List ToolCall :=
  if d.contains "gst_breakdown" && qTruthy (amountVal e) then
    [⟨"gst_breakdown",
      [("base_amount", PVal.num (e.amounts.headD 0)),
       ("gst_rate", PVal.num (e.gst_rates.headD 0))] ++
      (match e.is_intra_state with
       | some b => [("is_intra_state", PVal.bool b)]
       | none => [])⟩]
  else []

/-- Rate comparison branch: all extracted rates when more than one, otherwise
the standard panel `[5, 12, 18, 28]`. -/
def branchCompare (d : List String) (e : EntityBag) : List ToolCall :=
  if d.contains "compare_rates" && qTruthy (amountVal e) then
    [⟨"compare_gst_rates",
      [("base_amount", PVal.num (e.amounts.headD 0)),
       ("rates", PVal.rlist (if 1 < e.gst_rates.length then e.gst_rates else [5, 12, 18, 28]))]⟩]
  else []

/-- GSTIN validation branch: gated on a truthy extracted identifier. -/
def branchValidate (d : List String) (e : EntityBag) : List ToolCall :=
  if d.contains "validate_gstin" && optStrTruthy e.gstin then
    [⟨"validate_gstin", [("gstin", PVal.str (e.gstin.getD ""))]⟩]
  else []

/-- Parameterless informational branch shared by the six guide/info intents. -/
def branchInfoCall (d : List String) (intent tool : String) : List ToolCall :=
  if d.contains intent then [⟨tool, []⟩] else []

/-- Bus search branch: unconditional once the intent is present; missing
cities become empty strings, a missing date becomes `None`. -/
def branchBusSearch (d : List String) (e : EntityBag) : List ToolCall :=
  if d.contains "redbus_search" then
    [⟨"redbus_search_redirect",
      [("source_city", PVal.str (e.source_city.getD "")),
       ("destination_city", PVal.str (e.destination_city.getD "")),
       ("travel_date", optPV e.travel_date),
       ("redirect_to", PVal.str "web")]⟩]
  else []

/-- Booking branch: gated on a truthy ticket id. -/
def branchBusBooking (d : List String) (e : EntityBag) : List ToolCall :=
  if d.contains "redbus_booking" && optStrTruthy e.tin then
    [⟨"redbus_booking_redirect", [("tin", PVal.str (e.tin.getD ""))]⟩]
  else []

/-- Offers branch. -/
def branchBusOffers (d : List String) (e : EntityBag) : List ToolCall :=
  if d.contains "redbus_offers" then
    [⟨"redbus_offers_redirect", [("source_city", optPV e.source_city)]⟩]
  else []

/-- Tracking branch: gated on a truthy ticket id. -/
def branchBusTracking (d : List String) (e : EntityBag) : List ToolCall :=
  if d.contains "redbus_tracking" && optStrTruthy e.tin then
    [⟨"redbus_tracking_redirect", [("tin", PVal.str (e.tin.getD ""))]⟩]
  else []

/-- Popular-routes branch. -/
def branchBusRoutes (d : List String) (e : EntityBag) : List ToolCall :=
  if d.contains "redbus_routes" then
    [⟨"get_popular_routes", [("source_city", optPV e.source_city)]⟩]
  else []

/-- Open-redbus branch: redirect target depends on `"app"` occurring in the
lowered message. -/
def branchBusOpen (lower : List Char) (d : List String) : List ToolCall :=
  if d.contains "redbus_open" then
    [⟨"open_redbus",
      [("redirect_to", PVal.str (if containsSub lower ("app".toList) then "app" else "web"))]⟩]
  else []

/-- The planner: one independent branch per intent, appended in the source's
branch-declaration order. -/
def planCalls (lower : List Char) (d : List String) (e : EntityBag) : List ToolCall :=
  branchCalc d e ++ branchReverse d e ++ branchBreakdown d e ++ branchCompare d e ++
  branchValidate d e ++
  branchInfoCall d "company_guide" "get_company_onboarding_guide" ++
  branchInfoCall d "company_documents" "get_company_required_documents" ++
  branchInfoCall d "company_field" "get_validation_formats" ++
  branchInfoCall d "company_process" "get_onboarding_faq" ++
  branchInfoCall d "bank_guide" "get_bank_onboarding_guide" ++
  branchInfoCall d "vendor_guide" "get_vendor_onboarding_guide" ++
  branchBusSearch d e ++ branchBusBooking d e ++ branchBusOffers d e ++
  branchBusTracking d e ++ branchBusRoutes d e ++ branchBusOpen lower d

/-- The result record of `process_query`. -/
structure PQResult where
  intents_detected : List String
  tool_calls : List ToolCall
  entities : EntityBag
  is_multi_intent : Bool
  total_tools : Nat
deriving Repr, DecidableEq

/-- `process_query` for a loaded model: detect intents, extract entities, plan
tool calls, assemble the result. -/
def processQueryCore (m : LoadedModel) (q : List Char) : Except String PQResult :=
  match predictIntents m q with
  | Except.error e => Except.error e
  | Except.ok detected =>
    let entities := extractEntities q
    let calls := planCalls (lowerL q) detected entities
    Except.ok ⟨detected, calls, entities, decide (1 < detected.length), calls.length⟩

/-- `process_query` including the unloaded-model check performed at the top of
`predict_intents` (`raise ValueError(...)` when vectorizer or classifier is
missing). -/
def processQueryE : Option LoadedModel → List Char → Except String PQResult
  | none, _ => Except.error "Model not loaded. Train or load model first."
  | some m, q => processQueryCore m q

deriving instance DecidableEq for Except

/-! ### Concrete models and result projections used by witnesses and
counterexamples -/

/-- The entity bag of a request that matched nothing (also the default used by
the error-side projections below). -/
def emptyBag : EntityBag := ⟨none, [], [], none, none, none, none, none⟩

/-- Tool calls of a pipeline outcome (empty on error). -/
def callsOf : Except String PQResult → List ToolCall
  | Except.ok r => r.tool_calls
  | Except.error _ => []

/-- Entities of a pipeline outcome. -/
def entsOf : Except String PQResult → EntityBag
  | Except.ok r => r.entities
  | Except.error _ => emptyBag

/-- Detected intents of a pipeline outcome. -/
def intentsOf : Except String PQResult → List String
  | Except.ok r => r.intents_detected
  | Except.error _ => []

/-- Is a tool call a GST calculation call? -/
def isCalcCall (c : ToolCall) : Bool := c.tool_name == "calculate_gst"

/-- A loaded model whose classifier always predicts `calculate_gst` with
certainty. -/
def modelCalcOnly : LoadedModel := ⟨["calculate_gst"], fun _ => [1]⟩

/-- A loaded model whose classifier always predicts `reverse_gst` with
certainty. -/
def modelReverseOnly : LoadedModel := ⟨["reverse_gst"], fun _ => [1]⟩

/-- A loaded model whose classifier always predicts `redbus_open` with
certainty. -/
def modelOpenOnly : LoadedModel := ⟨["redbus_open"], fun _ => [1]⟩

/-! ### Claim C3 -/

/-- C3: entity extraction removes the GSTIN before numeric parsing, so for
`"validate 29ABCDE1234F1Z5 and calculate gst on 5000 at 12%"` the identifier is
`29ABCDE1234F1Z5`, the amounts are exactly `[5000]` (no identifier digit leaks
into them) and the rates are exactly `[12]`. -/
theorem c3_gstin_never_leaks_into_amounts :
    (extractEntities ("validate 29ABCDE1234F1Z5 and calculate gst on 5000 at 12%".toList)).gstin
      = some "29ABCDE1234F1Z5" ∧
    (extractEntities ("validate 29ABCDE1234F1Z5 and calculate gst on 5000 at 12%".toList)).amounts
      = [5000] ∧
    (extractEntities ("validate 29ABCDE1234F1Z5 and calculate gst on 5000 at 12%".toList)).gst_rates
      = [12] := by
  refine ⟨by decide, by decide, by decide⟩

/-! ### Claim C7 -/

/-- C7: processing is deterministic — the embedded pipeline is a pure function
of the loaded model and the utterance (there is no per-request mutable state),
so processing the same utterance twice yields identical intents, tool calls,
entities and multi-intent flag. -/
theorem c7_process_deterministic (m : Option LoadedModel) (q : List Char) :
    processQueryE m q = processQueryE m q := rfl

/-! ### Claim C1, counterexample -/

/-- C1 fails as stated: for `"remove gst from 5000"` (with a model predicting
`reverse_gst`) the planner emits a `reverse_calculate_gst` call — its intent
requires `total_amount` — by falling back to the base amount, yet the returned
entities map has no `total_amount` key.  The emitted call therefore has a
required entity absent from `entities`. -/
theorem c1_counterexample :
    (processQueryCore modelReverseOnly ("remove gst from 5000".toList)).isOk = true ∧
    (callsOf (processQueryCore modelReverseOnly ("remove gst from 5000".toList))).any
      (fun c => (requiredParamsOfTool c.tool_name).any
        (fun p =>
          !(entHasKey (entsOf (processQueryCore modelReverseOnly ("remove gst from 5000".toList))) p)))
      = true := by
  refine ⟨by decide, by decide⟩

/-! ### Claim C4, counterexample -/

/-- C4 fails as stated ("one calculate call per *distinct* extracted rate"):
for `"calculate gst on 1000 at 12% and 12%"` the rate `12` is extracted twice,
only `calculate_gst` is detected (comparison is not), the amount gate holds,
and the planner emits one call per rate *occurrence* — two identical calls —
although there is exactly one distinct rate. -/
theorem c4_counterexample :
    intentsOf (processQueryCore modelCalcOnly ("calculate gst on 1000 at 12% and 12%".toList))
      = ["calculate_gst"] ∧
    (entsOf (processQueryCore modelCalcOnly ("calculate gst on 1000 at 12% and 12%".toList))).gst_rates
      = [12, 12] ∧
    qTruthy (amountVal
      (entsOf (processQueryCore modelCalcOnly ("calculate gst on 1000 at 12% and 12%".toList))))
      = true ∧
    (dedupGo []
      (entsOf (processQueryCore modelCalcOnly
        ("calculate gst on 1000 at 12% and 12%".toList))).gst_rates).length = 1 ∧
    ((callsOf (processQueryCore modelCalcOnly
        ("calculate gst on 1000 at 12% and 12%".toList))).filter isCalcCall).length = 2 := by
  refine ⟨by decide, by decide, by decide, by decide, by decide⟩

/-! ### Claim C5, counterexample -/

/-- C5 fails as stated: for `"calculate gst on 1000 at 5% and 12% and 18% and
28%"` a single intent is detected but the calculation branch fans out one call
per extracted rate, giving four tool calls — more than `3 × 1`. -/
theorem c5_counterexample :
    (processQueryCore modelCalcOnly
        ("calculate gst on 1000 at 5% and 12% and 18% and 28%".toList)).isOk = true ∧
    (intentsOf (processQueryCore modelCalcOnly
        ("calculate gst on 1000 at 5% and 12% and 18% and 28%".toList))).length = 1 ∧
    (callsOf (processQueryCore modelCalcOnly
        ("calculate gst on 1000 at 5% and 12% and 18% and 28%".toList))).length = 4 ∧
    ¬(4 ≤ 3 * 1) := by
  refine ⟨by decide, by decide, by decide, by decide⟩

/-! ### Claim C6, counterexample -/

/-- C6 fails as stated: the source reorders the merged list whenever the
combined `keyword_matched` list (trigger matches plus whole-keyword matches)
has at least two members, not when the *trigger-matched* set does.  For
`"vendor check"` there is no conjunction marker, so the trigger-matched set is
empty, yet two keyword matches trigger the keyword-first reordering: the
result puts `validate_gstin` and `vendor_guide` ahead of the classifier's
prediction `redbus_open`, and differs from the unreordered deduplicated
union. -/
theorem c6_counterexample :
    (triggerMatchedList (lowerL ("vendor check".toList))).length = 0 ∧
    keywordMatchedList (lowerL ("vendor check".toList)) = ["validate_gstin", "vendor_guide"] ∧
    mergeCombined ["redbus_open"] (keywordMatchedList (lowerL ("vendor check".toList)))
      = ["validate_gstin", "vendor_guide", "redbus_open"] ∧
    pyDedup (["redbus_open"] ++ keywordMatchedList (lowerL ("vendor check".toList)))
      = ["redbus_open", "validate_gstin", "vendor_guide"] ∧
    predictIntents modelOpenOnly ("vendor check".toList)
      = Except.ok ["validate_gstin", "vendor_guide", "redbus_open"] := by
  refine ⟨by decide, by decide, by decide, by decide, by decide⟩

/-! ### Support lemmas: the ML stage never fails and never returns an empty
prediction for a well-formed loaded model -/

/-- Boolean membership agrees with propositional membership. -/
lemma contains_mem {α : Type} [BEq α] [LawfulBEq α] {l : List α} {a : α} :
    l.contains a = true ↔ a ∈ l := by
  simp [List.contains, List.elem_eq_mem]

/-- Boolean membership agrees with propositional membership (strings). -/
lemma contains_true {l : List String} {a : String} : l.contains a = true ↔ a ∈ l :=
  contains_mem

/-- The thresholding loop succeeds whenever the probability vector is no longer
than the class list, and returns a sublist of the classes. -/
lemma selectAbove_ok (t : ℚ) :
    ∀ (ps : List ℚ) (cs : List String), ps.length ≤ cs.length →
      ∃ l, selectAbove t ps cs = Except.ok l ∧ List.Sublist l cs := by
  intro ps
  induction ps with
  | nil => exact fun cs _ => ⟨[], rfl, List.nil_sublist cs⟩
  | cons p ps ih =>
    intro cs h
    cases cs with
    | nil => simp at h
    | cons c cs' =>
      by_cases hp : t < p
      · obtain ⟨l, hl, hsub⟩ := ih cs' (by simpa using h)
        exact ⟨c :: l, by simp [selectAbove, hp, hl], hsub.cons₂ c⟩
      · obtain ⟨l, hl, hsub⟩ := ih cs' (by simpa using h)
        exact ⟨l, by simp [selectAbove, hp, hl], hsub.cons c⟩

/-- The running argmax index either stays at its initial value or lands inside
the scanned segment. -/
lemma argmaxGo_cases :
    ∀ (l : List ℚ) (bi : Nat) (bv : ℚ) (i : Nat),
      argmaxGo bi bv i l = bi ∨
        (i ≤ argmaxGo bi bv i l ∧ argmaxGo bi bv i l < i + l.length) := by
  intro l
  induction l with
  | nil => exact fun bi bv i => Or.inl rfl
  | cons y t ih =>
    intro bi bv i
    simp only [argmaxGo, List.length_cons]
    by_cases h : bv < y
    · rw [if_pos h]
      rcases ih i y (i + 1) with h1 | ⟨h2, h3⟩
      · right; omega
      · right; omega
    · rw [if_neg h]
      rcases ih bi bv (i + 1) with h1 | ⟨h2, h3⟩
      · left; exact h1
      · right; omega

/-- `np.argmax` returns an index of the vector. -/
lemma argmaxIdx_lt {l : List ℚ} {j : Nat} (h : argmaxIdx l = some j) : j < l.length := by
  cases l with
  | nil => cases h
  | cons x t =>
    simp only [argmaxIdx, Option.some.injEq] at h
    subst h
    rcases argmaxGo_cases t 0 x 1 with h1 | ⟨h2, h3⟩
    · simp [h1]
    · simp only [List.length_cons]; omega

/-- The ML stage of `predict_intents` succeeds and is non-empty whenever the
model is well formed (probability vector as long as the class list, at least
one class); its output is a sublist of the class list unless it is the argmax
fallback singleton, so it is duplicate-free whenever the classes are. -/
lemma mlPredicted_ok {m : LoadedModel} {q : List Char}
    (hl : (m.probaOf q).length = m.classes.length) (hc : m.classes ≠ []) :
    ∃ l, mlPredicted m q = Except.ok l ∧ l ≠ [] ∧ (m.classes.Nodup → l.Nodup) := by
  obtain ⟨sel, hsel, hsub⟩ := selectAbove_ok (adaptiveThreshold q) (m.probaOf q) m.classes hl.le
  by_cases he : sel.isEmpty
  · have hne : m.probaOf q ≠ [] := by
      intro h0
      rw [h0] at hl
      exact hc (List.length_eq_zero.mp hl.symm)
    obtain ⟨x, t, hxt⟩ := List.exists_cons_of_ne_nil hne
    have hj : argmaxIdx (m.probaOf q) = some (argmaxGo 0 x 1 t) := by rw [hxt]; rfl
    have hlt : argmaxGo 0 x 1 t < m.classes.length := by
      have := argmaxIdx_lt hj
      omega
    refine ⟨[m.classes.get ⟨_, hlt⟩], ?_, by simp, fun _ => List.nodup_singleton _⟩
    simp [mlPredicted, hsel, he, hj, List.getElem?_eq_getElem hlt, List.get_eq_getElem]
  · exact ⟨sel, by simp [mlPredicted, hsel, he],
      by simpa [List.isEmpty_iff] using he, fun hnd => hnd.sublist hsub⟩

/-! ### Support lemmas: the keyword stage, merge and conflict resolution -/

/-- The seventeen intent names are pairwise distinct. -/
lemma intentNames_nodup : (intentConfigs.map (fun c => c.name)).Nodup := by decide

/-- Trigger matching lists each intent at most once. -/
lemma triggerMatchedList_nodup (lower : List Char) : (triggerMatchedList lower).Nodup := by
  unfold triggerMatchedList
  split
  · exact intentNames_nodup.sublist ((List.filter_sublist intentConfigs).map (fun c => c.name))
  · exact List.nodup_nil

/-- The keyword fold appends an intent only when it is not already present, so
it preserves duplicate-freedom of the accumulator. -/
lemma foldl_keyword_nodup (f : IntentConfig → Bool) :
    ∀ (cfgs : List IntentConfig) (acc : List String), acc.Nodup →
      (List.foldl
        (fun acc c => if f c && !(acc.contains c.name) then acc ++ [c.name] else acc)
        acc cfgs).Nodup := by
  intro cfgs
  induction cfgs with
  | nil => exact fun acc h => h
  | cons c cs ih =>
    intro acc h
    simp only [List.foldl_cons]
    by_cases hcond : (f c && !(acc.contains c.name)) = true
    · rw [if_pos hcond]
      apply ih
      have hnot : ¬ c.name ∈ acc := by
        intro hmem
        rw [Bool.and_eq_true, Bool.not_eq_true'] at hcond
        have h2 := contains_true.mpr hmem
        rw [hcond.2] at h2
        cases h2
      refine List.nodup_append.mpr ⟨h, List.nodup_singleton _, ?_⟩
      intro a ha hb
      rw [List.mem_singleton] at hb
      exact hnot (hb ▸ ha)
    · rw [if_neg hcond]
      exact ih acc h

/-- `keyword_matched` is duplicate-free. -/
lemma keywordMatchedList_nodup (lower : List Char) : (keywordMatchedList lower).Nodup := by
  unfold keywordMatchedList
  exact foldl_keyword_nodup _ intentConfigs _ (triggerMatchedList_nodup lower)

/-- Members of the deduplicated list come from the input. -/
lemma dedupGo_subset {α : Type} [BEq α] :
    ∀ (l seen : List α) (x : α), x ∈ dedupGo seen l → x ∈ l := by
  intro l
  induction l with
  | nil => intro seen x hx; simp [dedupGo] at hx
  | cons a t ih =>
    intro seen x hx
    unfold dedupGo at hx
    split at hx
    · exact List.mem_cons_of_mem a (ih seen x hx)
    · rcases List.mem_cons.mp hx with rfl | hx
      · exact List.mem_cons_self x t
      · exact List.mem_cons_of_mem a (ih (a :: seen) x hx)

/-- Nothing in the deduplicated list was already seen. -/
lemma dedupGo_not_seen {α : Type} [BEq α] [LawfulBEq α] :
    ∀ (l seen : List α) (x : α), x ∈ dedupGo seen l → ¬ x ∈ seen := by
  intro l
  induction l with
  | nil => intro seen x hx; simp [dedupGo] at hx
  | cons a t ih =>
    intro seen x hx hseen
    unfold dedupGo at hx
    split at hx
    · exact ih seen x hx hseen
    · next hcont =>
      rcases List.mem_cons.mp hx with rfl | hx
      · exact hcont (contains_mem.mpr hseen)
      · exact ih (a :: seen) x hx (List.mem_cons_of_mem a hseen)

/-- The deduplicated list is duplicate-free. -/
lemma dedupGo_nodup {α : Type} [BEq α] [LawfulBEq α] :
    ∀ (l seen : List α), (dedupGo seen l).Nodup := by
  intro l
  induction l with
  | nil => intro seen; simp [dedupGo]
  | cons a t ih =>
    intro seen
    unfold dedupGo
    split
    · exact ih seen
    · refine List.Nodup.cons ?_ (ih (a :: seen))
      intro hmem
      exact dedupGo_not_seen t (a :: seen) a hmem (List.mem_cons_self a seen)

/-- The Python-set model never empties a non-empty list. -/
lemma pyDedup_ne_nil {l : List String} (h : l ≠ []) : pyDedup l ≠ [] := by
  cases l with
  | nil => exact absurd rfl h
  | cons a t => simp [pyDedup, dedupGo]

/-- The merged intent list is non-empty whenever the prediction is. -/
lemma mergeCombined_ne_nil {pred km : List String} (hp : pred ≠ []) :
    mergeCombined pred km ≠ [] := by
  unfold mergeCombined
  split
  · next h =>
    intro habs
    rcases List.append_eq_nil.mp habs with ⟨h1, -⟩
    rw [h1] at h
    simp at h
  · exact pyDedup_ne_nil (by simp [hp])

/-- The merged intent list is duplicate-free when both inputs are. -/
lemma mergeCombined_nodup {pred km : List String} (hp : pred.Nodup) (hk : km.Nodup) :
    (mergeCombined pred km).Nodup := by
  unfold mergeCombined
  split
  · refine List.nodup_append.mpr ⟨hk, hp.filter _, ?_⟩
    intro a ha hb
    have h2 := (List.mem_filter.mp hb).2
    rw [Bool.not_eq_true'] at h2
    have h3 := contains_true.mpr ha
    rw [h2] at h3
    cases h3
  · exact dedupGo_nodup _ _

/-- Conflict resolution only filters, so it preserves duplicate-freedom. -/
lemma resolveConflicts_nodup (lower : List Char) {l : List String} (h : l.Nodup) :
    (resolveConflicts lower l).Nodup := by
  simp only [resolveConflicts]
  split_ifs <;> first
    | exact h
    | exact h.filter _
    | exact (h.filter _).filter _
    | exact ((h.filter _).filter _).filter _

/-- An intent distinct from the three suppressible ones survives conflict
resolution. -/
lemma mem_resolveConflicts (lower : List Char) {l : List String} {x : String}
    (hx : x ∈ l) (h1 : ¬(x = "company_documents")) (h2 : ¬(x = "company_process"))
    (h3 : ¬(x = "calculate_gst")) :
    x ∈ resolveConflicts lower l := by
  simp only [resolveConflicts]
  split_ifs <;> simp [List.mem_filter, hx, h1, h2, h3]

/-- Conflict resolution never empties a non-empty intent list: Rule A keeps
`company_guide` itself, and Rule B fires only when `gst_breakdown` is present
and removes only `calculate_gst`. -/
lemma resolveConflicts_ne_nil (lower : List Char) {l : List String} (h : l ≠ []) :
    resolveConflicts lower l ≠ [] := by
  by_cases hcg : "company_guide" ∈ l
  · exact List.ne_nil_of_mem (mem_resolveConflicts lower hcg (by decide) (by decide) (by decide))
  · by_cases hgb : "gst_breakdown" ∈ l
    · exact List.ne_nil_of_mem (mem_resolveConflicts lower hgb (by decide) (by decide) (by decide))
    · have hid : resolveConflicts lower l = l := by
        simp [resolveConflicts, hcg, hgb]
      rw [hid]
      exact h

/-- A non-empty list keeps a head after `take 3`. -/
lemma take3_ne_nil {l : List String} (h : l ≠ []) : l.take 3 ≠ [] := by
  cases l with
  | nil => exact absurd rfl h
  | cons a t => simp

/-- `predict_intents` succeeds on a well-formed loaded model and returns a
non-empty list of at most three intents, duplicate-free when the model's class
list is. -/
lemma predictIntents_ok {m : LoadedModel} {q : List Char}
    (hl : (m.probaOf q).length = m.classes.length) (hc : m.classes ≠ []) :
    ∃ ints, predictIntents m q = Except.ok ints ∧ ints ≠ [] ∧ ints.length ≤ 3 ∧
      (m.classes.Nodup → ints.Nodup) := by
  obtain ⟨pred, hpred, hne, hnd⟩ := mlPredicted_ok hl hc
  refine ⟨(resolveConflicts (lowerL q) (mergeCombined pred (keywordMatchedList (lowerL q)))).take 3,
    by simp [predictIntents, hpred], ?_, ?_, ?_⟩
  · exact take3_ne_nil (resolveConflicts_ne_nil _ (mergeCombined_ne_nil hne))
  · rw [List.length_take]
    exact min_le_left 3 _
  · intro hcl
    exact (resolveConflicts_nodup _
      (mergeCombined_nodup (hnd hcl) (keywordMatchedList_nodup _))).sublist
      (List.take_sublist 3 _)

/-- Inversion for a successful `process_query`. -/
lemma processQueryCore_ok {m : LoadedModel} {q : List Char} {r : PQResult}
    (h : processQueryCore m q = Except.ok r) :
    predictIntents m q = Except.ok r.intents_detected ∧
    r.entities = extractEntities q ∧
    r.tool_calls = planCalls (lowerL q) r.intents_detected (extractEntities q) := by
  unfold processQueryCore at h
  cases hp : predictIntents m q with
  | error e => rw [hp] at h; cases h
  | ok d =>
    rw [hp] at h
    have h2 : r = ⟨d, planCalls (lowerL q) d (extractEntities q), extractEntities q,
        decide (1 < d.length), (planCalls (lowerL q) d (extractEntities q)).length⟩ :=
      (Except.ok.inj h).symm
    subst h2
    exact ⟨rfl, rfl, rfl⟩

/-! ### Claim C2 -/

/-- C2: with a well-formed loaded model (probability vector matching the class
list, at least one class) processing always succeeds and the detected-intent
list is non-empty — the argmax fallback fires when nothing clears the adaptive
threshold — and has at most three entries after conflict resolution and
truncation. -/
theorem c2_intents_nonempty_at_most_three (m : LoadedModel) (q : List Char)
    (hl : (m.probaOf q).length = m.classes.length) (hc : m.classes ≠ []) :
    ∃ r, processQueryCore m q = Except.ok r ∧
      r.intents_detected ≠ [] ∧ r.intents_detected.length ≤ 3 := by
  obtain ⟨ints, hok, hne, hle, -⟩ := predictIntents_ok hl hc
  refine ⟨⟨ints, planCalls (lowerL q) ints (extractEntities q), extractEntities q,
    decide (1 < ints.length), (planCalls (lowerL q) ints (extractEntities q)).length⟩,
    ?_, hne, hle⟩
  simp [processQueryCore, hok]

/-- Witness for C2 at a concrete model and utterance. -/
theorem c2_witness :
    ∃ r, processQueryCore modelCalcOnly ("calculate gst on 100 at 5%".toList) = Except.ok r ∧
      r.intents_detected ≠ [] ∧ r.intents_detected.length ≤ 3 :=
  c2_intents_nonempty_at_most_three modelCalcOnly ("calculate gst on 100 at 5%".toList)
    (by decide) (by decide)

/-! ### Claim C8 -/

/-- C8: with no loaded model, processing raises (`ValueError`) before
producing any result; with a well-formed loaded model it always returns a
result, whatever entities the utterance does or does not contain. -/
theorem c8_unloaded_fatal_loaded_total :
    (∀ q : List Char,
      processQueryE none q = Except.error "Model not loaded. Train or load model first.") ∧
    (∀ (m : LoadedModel) (q : List Char),
      (m.probaOf q).length = m.classes.length → m.classes ≠ [] →
      ∃ r, processQueryE (some m) q = Except.ok r) := by
  constructor
  · intro q; rfl
  · intro m q hl hc
    obtain ⟨ints, hok, -, -, -⟩ := predictIntents_ok hl hc
    refine ⟨⟨ints, planCalls (lowerL q) ints (extractEntities q), extractEntities q,
      decide (1 < ints.length), (planCalls (lowerL q) ints (extractEntities q)).length⟩, ?_⟩
    simp [processQueryE, processQueryCore, hok]

/-- Witness for C8: the unloaded error on a concrete query, and a concrete
loaded model returning a result on an utterance with no extractable
entities. -/
theorem c8_witness :
    processQueryE none ("validate my gstin".toList)
      = Except.error "Model not loaded. Train or load model first." ∧
    ∃ r, processQueryE (some modelCalcOnly) ("validate my gstin".toList) = Except.ok r :=
  ⟨c8_unloaded_fatal_loaded_total.1 ("validate my gstin".toList),
   c8_unloaded_fatal_loaded_total.2 modelCalcOnly ("validate my gstin".toList)
     (by decide) (by decide)⟩

/-! ### Per-branch shape lemmas for the planner -/

/-- Calls of the calculation branch. -/
lemma mem_branchCalc {d : List String} {e : EntityBag} {c : ToolCall} (h : c ∈ branchCalc d e) :
    c.tool_name = "calculate_gst" ∧ c.parameters.map Prod.fst = ["base_amount", "gst_rate"] := by
  simp only [branchCalc] at h
  split_ifs at h
  · rw [List.mem_singleton] at h
    subst h
    exact ⟨rfl, rfl⟩
  · obtain ⟨rate, -, rfl⟩ := List.mem_map.mp h
    exact ⟨rfl, rfl⟩
  · cases h

/-- Calls of the reverse-calculation branch. -/
lemma mem_branchReverse {d : List String} {e : EntityBag} {c : ToolCall}
    (h : c ∈ branchReverse d e) :
    c.tool_name = "reverse_calculate_gst" ∧
    c.parameters.map Prod.fst = ["total_amount", "gst_rate"] := by
  simp only [branchReverse] at h
  split_ifs at h
  · rw [List.mem_singleton] at h
    subst h
    exact ⟨rfl, rfl⟩
  · cases h
  · cases h

/-- Calls of the breakdown branch: the state-locality key is appended only
when the entity is present. -/
lemma mem_branchBreakdown {d : List String} {e : EntityBag} {c : ToolCall}
    (h : c ∈ branchBreakdown d e) :
    c.tool_name = "gst_breakdown" ∧
    (c.parameters.map Prod.fst = ["base_amount", "gst_rate"] ∨
     c.parameters.map Prod.fst = ["base_amount", "gst_rate", "is_intra_state"]) := by
  simp only [branchBreakdown] at h
  split_ifs at h
  · rw [List.mem_singleton] at h
    subst h
    cases hi : e.is_intra_state with
    | none => exact ⟨rfl, Or.inl (by simp [hi])⟩
    | some b => exact ⟨rfl, Or.inr (by simp [hi])⟩
  · cases h

/-- Calls of the comparison branch. -/
lemma mem_branchCompare {d : List String} {e : EntityBag} {c : ToolCall}
    (h : c ∈ branchCompare d e) :
    c.tool_name = "compare_gst_rates" ∧ c.parameters.map Prod.fst = ["base_amount", "rates"] := by
  simp only [branchCompare] at h
  split_ifs at h <;>
    first
      | (rw [List.mem_singleton] at h; subst h; exact ⟨rfl, rfl⟩)
      | cases h

/-- Calls of the validation branch. -/
lemma mem_branchValidate {d : List String} {e : EntityBag} {c : ToolCall}
    (h : c ∈ branchValidate d e) :
    c.tool_name = "validate_gstin" ∧ c.parameters.map Prod.fst = ["gstin"] := by
  simp only [branchValidate] at h
  split_ifs at h
  · rw [List.mem_singleton] at h
    subst h
    exact ⟨rfl, rfl⟩
  · cases h

/-- Calls of a parameterless informational branch. -/
lemma mem_branchInfoCall {d : List String} {i t : String} {c : ToolCall}
    (h : c ∈ branchInfoCall d i t) :
    c.tool_name = t ∧ c.parameters = [] := by
  simp only [branchInfoCall] at h
  split_ifs at h
  · rw [List.mem_singleton] at h
    subst h
    exact ⟨rfl, rfl⟩
  · cases h

/-- Calls of the bus-search branch. -/
lemma mem_branchBusSearch {d : List String} {e : EntityBag} {c : ToolCall}
    (h : c ∈ branchBusSearch d e) :
    c.tool_name = "redbus_search_redirect" ∧
    c.parameters.map Prod.fst
      = ["source_city", "destination_city", "travel_date", "redirect_to"] := by
  simp only [branchBusSearch] at h
  split_ifs at h
  · rw [List.mem_singleton] at h
    subst h
    exact ⟨rfl, rfl⟩
  · cases h

/-- Calls of the booking branch. -/
lemma mem_branchBusBooking {d : List String} {e : EntityBag} {c : ToolCall}
    (h : c ∈ branchBusBooking d e) :
    c.tool_name = "redbus_booking_redirect" ∧ c.parameters.map Prod.fst = ["tin"] := by
  simp only [branchBusBooking] at h
  split_ifs at h
  · rw [List.mem_singleton] at h
    subst h
    exact ⟨rfl, rfl⟩
  · cases h

/-- Calls of the offers branch. -/
lemma mem_branchBusOffers {d : List String} {e : EntityBag} {c : ToolCall}
    (h : c ∈ branchBusOffers d e) :
    c.tool_name = "redbus_offers_redirect" ∧ c.parameters.map Prod.fst = ["source_city"] := by
  simp only [branchBusOffers] at h
  split_ifs at h
  · rw [List.mem_singleton] at h
    subst h
    exact ⟨rfl, rfl⟩
  · cases h

/-- Calls of the tracking branch. -/
lemma mem_branchBusTracking {d : List String} {e : EntityBag} {c : ToolCall}
    (h : c ∈ branchBusTracking d e) :
    c.tool_name = "redbus_tracking_redirect" ∧ c.parameters.map Prod.fst = ["tin"] := by
  simp only [branchBusTracking] at h
  split_ifs at h
  · rw [List.mem_singleton] at h
    subst h
    exact ⟨rfl, rfl⟩
  · cases h

/-- Calls of the popular-routes branch. -/
lemma mem_branchBusRoutes {d : List String} {e : EntityBag} {c : ToolCall}
    (h : c ∈ branchBusRoutes d e) :
    c.tool_name = "get_popular_routes" ∧ c.parameters.map Prod.fst = ["source_city"] := by
  simp only [branchBusRoutes] at h
  split_ifs at h
  · rw [List.mem_singleton] at h
    subst h
    exact ⟨rfl, rfl⟩
  · cases h

/-- Calls of the open-redbus branch. -/
lemma mem_branchBusOpen {lower : List Char} {d : List String} {c : ToolCall}
    (h : c ∈ branchBusOpen lower d) :
    c.tool_name = "open_redbus" ∧ c.parameters.map Prod.fst = ["redirect_to"] := by
  simp only [branchBusOpen] at h
  split_ifs at h <;>
    first
      | (rw [List.mem_singleton] at h; subst h; exact ⟨rfl, rfl⟩)
      | cases h

/-! ### Claim C1, amended -/

/-- C1 (amended): every emitted tool call binds each of its intent's required
parameters in the call's own parameter map, so calls never carry unbound
references, and entity-gated branches append nothing when their gate fails —
but the bound value may come from a fallback that is not a key of the returned
entities map (which is what refutes the claim as stated). -/
theorem c1_required_params_always_bound (m : LoadedModel) (q : List Char) (r : PQResult)
    (h : processQueryCore m q = Except.ok r) :
    ∀ c ∈ r.tool_calls, ∀ p ∈ requiredParamsOfTool c.tool_name,
      p ∈ c.parameters.map Prod.fst := by
  obtain ⟨-, -, hcalls⟩ := processQueryCore_ok h
  rw [hcalls]
  intro c hc p hp
  simp only [planCalls, List.mem_append, or_assoc] at hc
  rcases hc with h1|h1|h1|h1|h1|h1|h1|h1|h1|h1|h1|h1|h1|h1|h1|h1|h1
  · rcases mem_branchCalc h1 with ⟨htool, hkeys⟩
    rw [htool] at hp
    rw [hkeys]
    exact (by decide :
      ∀ y ∈ requiredParamsOfTool "calculate_gst", y ∈ ["base_amount", "gst_rate"]) p hp
  · rcases mem_branchReverse h1 with ⟨htool, hkeys⟩
    rw [htool] at hp
    rw [hkeys]
    exact (by decide :
      ∀ y ∈ requiredParamsOfTool "reverse_calculate_gst", y ∈ ["total_amount", "gst_rate"]) p hp
  · rcases mem_branchBreakdown h1 with ⟨htool, hkeys⟩
    rw [htool] at hp
    rcases hkeys with hk | hk <;> rw [hk]
    · exact (by decide :
        ∀ y ∈ requiredParamsOfTool "gst_breakdown", y ∈ ["base_amount", "gst_rate"]) p hp
    · exact (by decide :
        ∀ y ∈ requiredParamsOfTool "gst_breakdown",
          y ∈ ["base_amount", "gst_rate", "is_intra_state"]) p hp
  · rcases mem_branchCompare h1 with ⟨htool, hkeys⟩
    rw [htool] at hp
    rw [hkeys]
    exact (by decide :
      ∀ y ∈ requiredParamsOfTool "compare_gst_rates", y ∈ ["base_amount", "rates"]) p hp
  · rcases mem_branchValidate h1 with ⟨htool, hkeys⟩
    rw [htool] at hp
    rw [hkeys]
    exact (by decide : ∀ y ∈ requiredParamsOfTool "validate_gstin", y ∈ ["gstin"]) p hp
  · rcases mem_branchInfoCall h1 with ⟨htool, -⟩
    rw [htool, (by decide : requiredParamsOfTool "get_company_onboarding_guide" = [])] at hp
    cases hp
  · rcases mem_branchInfoCall h1 with ⟨htool, -⟩
    rw [htool, (by decide : requiredParamsOfTool "get_company_required_documents" = [])] at hp
    cases hp
  · rcases mem_branchInfoCall h1 with ⟨htool, -⟩
    rw [htool, (by decide : requiredParamsOfTool "get_validation_formats" = [])] at hp
    cases hp
  · rcases mem_branchInfoCall h1 with ⟨htool, -⟩
    rw [htool, (by decide : requiredParamsOfTool "get_onboarding_faq" = [])] at hp
    cases hp
  · rcases mem_branchInfoCall h1 with ⟨htool, -⟩
    rw [htool, (by decide : requiredParamsOfTool "get_bank_onboarding_guide" = [])] at hp
    cases hp
  · rcases mem_branchInfoCall h1 with ⟨htool, -⟩
    rw [htool, (by decide : requiredParamsOfTool "get_vendor_onboarding_guide" = [])] at hp
    cases hp
  · rcases mem_branchBusSearch h1 with ⟨htool, hkeys⟩
    rw [htool] at hp
    rw [hkeys]
    exact (by decide :
      ∀ y ∈ requiredParamsOfTool "redbus_search_redirect",
        y ∈ ["source_city", "destination_city", "travel_date", "redirect_to"]) p hp
  · rcases mem_branchBusBooking h1 with ⟨htool, hkeys⟩
    rw [htool] at hp
    rw [hkeys]
    exact (by decide : ∀ y ∈ requiredParamsOfTool "redbus_booking_redirect", y ∈ ["tin"]) p hp
  · rcases mem_branchBusOffers h1 with ⟨htool, -⟩
    rw [htool, (by decide : requiredParamsOfTool "redbus_offers_redirect" = [])] at hp
    cases hp
  · rcases mem_branchBusTracking h1 with ⟨htool, hkeys⟩
    rw [htool] at hp
    rw [hkeys]
    exact (by decide : ∀ y ∈ requiredParamsOfTool "redbus_tracking_redirect", y ∈ ["tin"]) p hp
  · rcases mem_branchBusRoutes h1 with ⟨htool, -⟩
    rw [htool, (by decide : requiredParamsOfTool "get_popular_routes" = [])] at hp
    cases hp
  · rcases mem_branchBusOpen h1 with ⟨htool, -⟩
    rw [htool, (by decide : requiredParamsOfTool "open_redbus" = [])] at hp
    cases hp

/-- Witness for C1 (amended) at a concrete model and utterance that does emit
a call. -/
theorem c1_witness :
    ∃ r, processQueryCore modelCalcOnly ("calculate gst on 100 at 5%".toList) = Except.ok r ∧
      ∀ c ∈ r.tool_calls, ∀ p ∈ requiredParamsOfTool c.tool_name,
        p ∈ c.parameters.map Prod.fst := by
  rcases hE : processQueryCore modelCalcOnly ("calculate gst on 100 at 5%".toList) with e | r
  · have hT : (processQueryCore modelCalcOnly ("calculate gst on 100 at 5%".toList)).isOk
        = true := by decide
    rw [hE] at hT
    cases hT
  · exact ⟨r, rfl, c1_required_params_always_bound _ _ _ hE⟩

/-! ### Claim C9 -/

/-- C9: when the first extracted amount is `0`, the planner's truthiness gate
treats the amount as absent: no `calculate_gst`, `gst_breakdown` or
`compare_gst_rates` call is emitted even though the amounts list contains the
zero, and the request still returns normally. -/
theorem c9_zero_amount_skips_monetary_calls (m : LoadedModel) (q : List Char)
    (hl : (m.probaOf q).length = m.classes.length) (hc : m.classes ≠ [])
    (h0 : (extractEntities q).amounts.head? = some 0) :
    ∃ r, processQueryCore m q = Except.ok r ∧
      ∀ c ∈ r.tool_calls,
        c.tool_name ≠ "calculate_gst" ∧ c.tool_name ≠ "gst_breakdown" ∧
        c.tool_name ≠ "compare_gst_rates" := by
  obtain ⟨ints, hok, -, -, -⟩ := predictIntents_ok hl hc
  refine ⟨⟨ints, planCalls (lowerL q) ints (extractEntities q), extractEntities q,
    decide (1 < ints.length), (planCalls (lowerL q) ints (extractEntities q)).length⟩,
    by simp [processQueryCore, hok], ?_⟩
  intro c hcm
  have hq : qTruthy (amountVal (extractEntities q)) = false := by
    simp [qTruthy, amountVal, h0]
  simp only [planCalls, List.mem_append, or_assoc] at hcm
  rcases hcm with h1|h1|h1|h1|h1|h1|h1|h1|h1|h1|h1|h1|h1|h1|h1|h1|h1
  · simp [branchCalc, hq] at h1
  · rcases mem_branchReverse h1 with ⟨htool, -⟩
    refine ⟨?_, ?_, ?_⟩ <;> (rw [htool]; decide)
  · simp [branchBreakdown, hq] at h1
  · simp [branchCompare, hq] at h1
  · rcases mem_branchValidate h1 with ⟨htool, -⟩
    refine ⟨?_, ?_, ?_⟩ <;> (rw [htool]; decide)
  · rcases mem_branchInfoCall h1 with ⟨htool, -⟩
    refine ⟨?_, ?_, ?_⟩ <;> (rw [htool]; decide)
  · rcases mem_branchInfoCall h1 with ⟨htool, -⟩
    refine ⟨?_, ?_, ?_⟩ <;> (rw [htool]; decide)
  · rcases mem_branchInfoCall h1 with ⟨htool, -⟩
    refine ⟨?_, ?_, ?_⟩ <;> (rw [htool]; decide)
  · rcases mem_branchInfoCall h1 with ⟨htool, -⟩
    refine ⟨?_, ?_, ?_⟩ <;> (rw [htool]; decide)
  · rcases mem_branchInfoCall h1 with ⟨htool, -⟩
    refine ⟨?_, ?_, ?_⟩ <;> (rw [htool]; decide)
  · rcases mem_branchInfoCall h1 with ⟨htool, -⟩
    refine ⟨?_, ?_, ?_⟩ <;> (rw [htool]; decide)
  · rcases mem_branchBusSearch h1 with ⟨htool, -⟩
    refine ⟨?_, ?_, ?_⟩ <;> (rw [htool]; decide)
  · rcases mem_branchBusBooking h1 with ⟨htool, -⟩
    refine ⟨?_, ?_, ?_⟩ <;> (rw [htool]; decide)
  · rcases mem_branchBusOffers h1 with ⟨htool, -⟩
    refine ⟨?_, ?_, ?_⟩ <;> (rw [htool]; decide)
  · rcases mem_branchBusTracking h1 with ⟨htool, -⟩
    refine ⟨?_, ?_, ?_⟩ <;> (rw [htool]; decide)
  · rcases mem_branchBusRoutes h1 with ⟨htool, -⟩
    refine ⟨?_, ?_, ?_⟩ <;> (rw [htool]; decide)
  · rcases mem_branchBusOpen h1 with ⟨htool, -⟩
    refine ⟨?_, ?_, ?_⟩ <;> (rw [htool]; decide)

/-- Witness for C9 at the utterance `"calculate gst on 0 at 18%"`. -/
theorem c9_witness :
    (extractEntities ("calculate gst on 0 at 18%".toList)).amounts.head? = some 0 ∧
    ∃ r, processQueryCore modelCalcOnly ("calculate gst on 0 at 18%".toList) = Except.ok r ∧
      ∀ c ∈ r.tool_calls,
        c.tool_name ≠ "calculate_gst" ∧ c.tool_name ≠ "gst_breakdown" ∧
        c.tool_name ≠ "compare_gst_rates" :=
  ⟨by decide,
   c9_zero_amount_skips_monetary_calls modelCalcOnly ("calculate gst on 0 at 18%".toList)
     (by decide) (by decide) (by decide)⟩

/-! ### Claim C4, amended -/

/-- A list of calls none of which is a calculation call filters to nothing. -/
lemma filter_calc_nil {b : List ToolCall} (hb : ∀ c ∈ b, c.tool_name ≠ "calculate_gst") :
    b.filter isCalcCall = [] := by
  rw [List.filter_eq_nil_iff]
  intro c hc
  simp only [isCalcCall, beq_iff_eq]
  exact hb c hc

/-- C4 (amended): when the calculation intent is detected with a truthy
amount, the planner emits one `calculate_gst` call per extracted rate
*occurrence*, in extraction order and without collapsing duplicates — unless a
comparison intent is also detected, in which case it emits exactly one
`calculate_gst` call bound to the first (primary) rate. -/
theorem c4_calc_fanout_per_rate_occurrence (lower : List Char) (d : List String) (e : EntityBag)
    (hd : "calculate_gst" ∈ d) (ha : qTruthy (amountVal e) = true) :
    (planCalls lower d e).filter isCalcCall =
      (if "compare_rates" ∈ d then
        [⟨"calculate_gst", [("base_amount", PVal.num (e.amounts.headD 0)),
                            ("gst_rate", PVal.num (e.gst_rates.headD 0))]⟩]
      else
        e.gst_rates.map (fun rate =>
          ⟨"calculate_gst", [("base_amount", PVal.num (e.amounts.headD 0)),
                             ("gst_rate", PVal.num rate)]⟩)) := by
  have hgate : (d.contains "calculate_gst" && qTruthy (amountVal e)) = true := by
    rw [contains_true.mpr hd, ha]
    rfl
  have hcal : (branchCalc d e).filter isCalcCall = branchCalc d e :=
    List.filter_eq_self.mpr (fun c hc => by
      simp only [isCalcCall, beq_iff_eq]
      exact (mem_branchCalc hc).1)
  have hrev : (branchReverse d e).filter isCalcCall = [] :=
    filter_calc_nil (fun c hc => by rw [(mem_branchReverse hc).1]; decide)
  have hbrk : (branchBreakdown d e).filter isCalcCall = [] :=
    filter_calc_nil (fun c hc => by rw [(mem_branchBreakdown hc).1]; decide)
  have hcmp : (branchCompare d e).filter isCalcCall = [] :=
    filter_calc_nil (fun c hc => by rw [(mem_branchCompare hc).1]; decide)
  have hval : (branchValidate d e).filter isCalcCall = [] :=
    filter_calc_nil (fun c hc => by rw [(mem_branchValidate hc).1]; decide)
  have hcg : (branchInfoCall d "company_guide" "get_company_onboarding_guide").filter isCalcCall
      = [] :=
    filter_calc_nil (fun c hc => by rw [(mem_branchInfoCall hc).1]; decide)
  have hcd : (branchInfoCall d "company_documents" "get_company_required_documents").filter
      isCalcCall = [] :=
    filter_calc_nil (fun c hc => by rw [(mem_branchInfoCall hc).1]; decide)
  have hcf : (branchInfoCall d "company_field" "get_validation_formats").filter isCalcCall = [] :=
    filter_calc_nil (fun c hc => by rw [(mem_branchInfoCall hc).1]; decide)
  have hcp : (branchInfoCall d "company_process" "get_onboarding_faq").filter isCalcCall = [] :=
    filter_calc_nil (fun c hc => by rw [(mem_branchInfoCall hc).1]; decide)
  have hbg : (branchInfoCall d "bank_guide" "get_bank_onboarding_guide").filter isCalcCall = [] :=
    filter_calc_nil (fun c hc => by rw [(mem_branchInfoCall hc).1]; decide)
  have hvg : (branchInfoCall d "vendor_guide" "get_vendor_onboarding_guide").filter isCalcCall
      = [] :=
    filter_calc_nil (fun c hc => by rw [(mem_branchInfoCall hc).1]; decide)
  have hbs : (branchBusSearch d e).filter isCalcCall = [] :=
    filter_calc_nil (fun c hc => by rw [(mem_branchBusSearch hc).1]; decide)
  have hbb : (branchBusBooking d e).filter isCalcCall = [] :=
    filter_calc_nil (fun c hc => by rw [(mem_branchBusBooking hc).1]; decide)
  have hbo : (branchBusOffers d e).filter isCalcCall = [] :=
    filter_calc_nil (fun c hc => by rw [(mem_branchBusOffers hc).1]; decide)
  have hbt : (branchBusTracking d e).filter isCalcCall = [] :=
    filter_calc_nil (fun c hc => by rw [(mem_branchBusTracking hc).1]; decide)
  have hbr : (branchBusRoutes d e).filter isCalcCall = [] :=
    filter_calc_nil (fun c hc => by rw [(mem_branchBusRoutes hc).1]; decide)
  have hbop : (branchBusOpen lower d).filter isCalcCall = [] :=
    filter_calc_nil (fun c hc => by rw [(mem_branchBusOpen hc).1]; decide)
  simp only [planCalls, List.filter_append, hcal, hrev, hbrk, hcmp, hval, hcg, hcd, hcf, hcp,
    hbg, hvg, hbs, hbb, hbo, hbt, hbr, hbop, List.append_nil, List.nil_append]
  by_cases hcr : "compare_rates" ∈ d
  · rw [if_pos hcr]
    simp [branchCalc, hd, ha, hcr]
  · rw [if_neg hcr]
    simp [branchCalc, hd, ha, hcr]

/-- Witness for C4 (amended) at the claim's example utterance: the detection
produces calculate and compare, and the single calculate call is bound to the
primary rate 18. -/
theorem c4_witness :
    predictIntents modelCalcOnly
      ("calculate gst on 10000 at 18% and also compare with 12%".toList)
      = Except.ok ["calculate_gst", "compare_rates"] ∧
    (planCalls (lowerL ("calculate gst on 10000 at 18% and also compare with 12%".toList))
        ["calculate_gst", "compare_rates"]
        (extractEntities ("calculate gst on 10000 at 18% and also compare with 12%".toList))).filter
        isCalcCall
      = [⟨"calculate_gst", [("base_amount", PVal.num 10000), ("gst_rate", PVal.num 18)]⟩] := by
  refine ⟨by decide, ?_⟩
  rw [c4_calc_fanout_per_rate_occurrence
    (lowerL ("calculate gst on 10000 at 18% and also compare with 12%".toList))
    ["calculate_gst", "compare_rates"]
    (extractEntities ("calculate gst on 10000 at 18% and also compare with 12%".toList))
    (by decide) (by decide)]
  decide

/-! ### Claim C6, amended -/

/-- C6 (amended): the merged intent list is reordered — `keyword_matched`
intents first (trigger matches, when a conjunction marker gated them in,
followed by whole-keyword matches), then the remaining classifier
predictions — exactly when that combined `keyword_matched` list has at least
two members; otherwise the deduplicated union is used. -/
theorem c6_reorder_iff_two_keyword_matches (m : LoadedModel) (q : List Char) (pred : List String)
    (hm : mlPredicted m q = Except.ok pred) :
    (2 ≤ (keywordMatchedList (lowerL q)).length →
      predictIntents m q = Except.ok
        ((resolveConflicts (lowerL q)
          ((keywordMatchedList (lowerL q)) ++
            pred.filter (fun p => !((keywordMatchedList (lowerL q)).contains p)))).take 3)) ∧
    ((keywordMatchedList (lowerL q)).length < 2 →
      predictIntents m q = Except.ok
        ((resolveConflicts (lowerL q)
          (pyDedup (pred ++ keywordMatchedList (lowerL q)))).take 3)) := by
  constructor
  · intro h2
    simp [predictIntents, hm, mergeCombined, h2]
  · intro h2
    have hn : ¬ 2 ≤ (keywordMatchedList (lowerL q)).length := by omega
    simp [predictIntents, hm, mergeCombined, hn]

/-- Witness for C6 (amended) at `"vendor check"`: two keyword matches, so the
reordered (keyword-first) merge is what the pipeline returns. -/
theorem c6_witness :
    predictIntents modelOpenOnly ("vendor check".toList)
      = Except.ok
        ((resolveConflicts (lowerL ("vendor check".toList))
          ((keywordMatchedList (lowerL ("vendor check".toList))) ++
            (["redbus_open"]).filter
              (fun p => !((keywordMatchedList (lowerL ("vendor check".toList))).contains p)))).take
          3) :=
  (c6_reorder_iff_two_keyword_matches modelOpenOnly ("vendor check".toList) ["redbus_open"]
    (by decide)).1 (by decide)

/-! ### Claim C5, amended: counting machinery -/

/-- Indicator of membership, used to bound per-branch call counts. -/
def memInd (D : List String) (n : String) : Nat := if n ∈ D then 1 else 0

/-- The membership-indicator sum over a name list is a `countP`. -/
lemma sum_memInd (D : List String) :
    ∀ names : List String,
      (names.map (memInd D)).sum = names.countP (fun n => decide (n ∈ D)) := by
  intro names
  induction names with
  | nil => rfl
  | cons a t ih =>
    simp only [List.map_cons, List.sum_cons, List.countP_cons, ih, memInd, decide_eq_true_eq]
    by_cases h : a ∈ D <;> simp [h] <;> omega

/-- Distinct names each found in a duplicate-free list are at most as many as
that list's elements. -/
lemma countP_mem_le (D names : List String) (hn : names.Nodup) (hD : D.Nodup) :
    names.countP (fun n => decide (n ∈ D)) ≤ D.length := by
  rw [List.countP_eq_length_filter]
  have hsub : ∀ x ∈ names.filter (fun n => decide (n ∈ D)), x ∈ D := by
    intro x hx
    have := (List.mem_filter.mp hx).2
    simpa using this
  exact ((hn.filter _).subperm hsub).length_le

/-- The extracted rate list is never empty (a default rate is installed). -/
lemma gst_rates_ne_nil (q : List Char) : (extractEntities q).gst_rates ≠ [] := by
  simp only [extractEntities]
  split_ifs with h
  · simp
  · rw [Ne, List.map_eq_nil_iff]
    intro h0
    rw [h0] at h
    exact h rfl

/-- The calculation branch emits at most one call per extracted rate, and only
when its intent was detected. -/
lemma branchCalc_le (d : List String) (e : EntityBag) (hr : e.gst_rates ≠ []) :
    (branchCalc d e).length ≤ memInd d "calculate_gst" + (e.gst_rates.length - 1) := by
  have hR : 1 ≤ e.gst_rates.length := List.length_pos.mpr hr
  by_cases hcd : d.contains "calculate_gst" = true
  · unfold memInd
    rw [if_pos (contains_true.mp hcd)]
    simp only [branchCalc]
    split_ifs <;> simp <;> omega
  · have hmem : ¬ "calculate_gst" ∈ d := fun hm => hcd (contains_true.mpr hm)
    simp [branchCalc, hmem]

/-- The reverse branch emits at most one call, and only when detected. -/
lemma branchReverse_le (d : List String) (e : EntityBag) :
    (branchReverse d e).length ≤ memInd d "reverse_gst" := by
  simp only [branchReverse]
  split_ifs with h1 h2 <;>
    first
      | (rw [Bool.and_eq_true] at h1
         unfold memInd
         rw [if_pos (contains_true.mp h1.1)]
         simp)
      | (unfold memInd
         rw [if_pos (contains_true.mp h1)]
         simp)
      | simp [memInd]
/-- The breakdown branch emits at most one call, and only when detected. -/
lemma branchBreakdown_le (d : List String) (e : EntityBag) :
    (branchBreakdown d e).length ≤ memInd d "gst_breakdown" := by
  simp only [branchBreakdown]
  split_ifs with h1 h2 <;>
    first
      | (rw [Bool.and_eq_true] at h1
         unfold memInd
         rw [if_pos (contains_true.mp h1.1)]
         simp)
      | (unfold memInd
         rw [if_pos (contains_true.mp h1)]
         simp)
      | simp [memInd]
/-- The comparison branch emits at most one call, and only when detected. -/
lemma branchCompare_le (d : List String) (e : EntityBag) :
    (branchCompare d e).length ≤ memInd d "compare_rates" := by
  simp only [branchCompare]
  split_ifs with h1 h2 <;>
    first
      | (rw [Bool.and_eq_true] at h1
         unfold memInd
         rw [if_pos (contains_true.mp h1.1)]
         simp)
      | (unfold memInd
         rw [if_pos (contains_true.mp h1)]
         simp)
      | simp [memInd]
/-- The validation branch emits at most one call, and only when detected. -/
lemma branchValidate_le (d : List String) (e : EntityBag) :
    (branchValidate d e).length ≤ memInd d "validate_gstin" := by
  simp only [branchValidate]
  split_ifs with h1 h2 <;>
    first
      | (rw [Bool.and_eq_true] at h1
         unfold memInd
         rw [if_pos (contains_true.mp h1.1)]
         simp)
      | (unfold memInd
         rw [if_pos (contains_true.mp h1)]
         simp)
      | simp [memInd]
/-- An informational branch emits at most one call, and only when detected. -/
lemma branchInfoCall_le (d : List String) (i t : String) :
    (branchInfoCall d i t).length ≤ memInd d i := by
  simp only [branchInfoCall]
  split_ifs with h1 h2 <;>
    first
      | (rw [Bool.and_eq_true] at h1
         unfold memInd
         rw [if_pos (contains_true.mp h1.1)]
         simp)
      | (unfold memInd
         rw [if_pos (contains_true.mp h1)]
         simp)
      | simp [memInd]
/-- The bus-search branch emits at most one call, and only when detected. -/
lemma branchBusSearch_le (d : List String) (e : EntityBag) :
    (branchBusSearch d e).length ≤ memInd d "redbus_search" := by
  simp only [branchBusSearch]
  split_ifs with h1 h2 <;>
    first
      | (rw [Bool.and_eq_true] at h1
         unfold memInd
         rw [if_pos (contains_true.mp h1.1)]
         simp)
      | (unfold memInd
         rw [if_pos (contains_true.mp h1)]
         simp)
      | simp [memInd]
/-- The booking branch emits at most one call, and only when detected. -/
lemma branchBusBooking_le (d : List String) (e : EntityBag) :
    (branchBusBooking d e).length ≤ memInd d "redbus_booking" := by
  simp only [branchBusBooking]
  split_ifs with h1 h2 <;>
    first
      | (rw [Bool.and_eq_true] at h1
         unfold memInd
         rw [if_pos (contains_true.mp h1.1)]
         simp)
      | (unfold memInd
         rw [if_pos (contains_true.mp h1)]
         simp)
      | simp [memInd]
/-- The offers branch emits at most one call, and only when detected. -/
lemma branchBusOffers_le (d : List String) (e : EntityBag) :
    (branchBusOffers d e).length ≤ memInd d "redbus_offers" := by
  simp only [branchBusOffers]
  split_ifs with h1 h2 <;>
    first
      | (rw [Bool.and_eq_true] at h1
         unfold memInd
         rw [if_pos (contains_true.mp h1.1)]
         simp)
      | (unfold memInd
         rw [if_pos (contains_true.mp h1)]
         simp)
      | simp [memInd]
/-- The tracking branch emits at most one call, and only when detected. -/
lemma branchBusTracking_le (d : List String) (e : EntityBag) :
    (branchBusTracking d e).length ≤ memInd d "redbus_tracking" := by
  simp only [branchBusTracking]
  split_ifs with h1 h2 <;>
    first
      | (rw [Bool.and_eq_true] at h1
         unfold memInd
         rw [if_pos (contains_true.mp h1.1)]
         simp)
      | (unfold memInd
         rw [if_pos (contains_true.mp h1)]
         simp)
      | simp [memInd]
/-- The routes branch emits at most one call, and only when detected. -/
lemma branchBusRoutes_le (d : List String) (e : EntityBag) :
    (branchBusRoutes d e).length ≤ memInd d "redbus_routes" := by
  simp only [branchBusRoutes]
  split_ifs with h1 h2 <;>
    first
      | (rw [Bool.and_eq_true] at h1
         unfold memInd
         rw [if_pos (contains_true.mp h1.1)]
         simp)
      | (unfold memInd
         rw [if_pos (contains_true.mp h1)]
         simp)
      | simp [memInd]
/-- The open-redbus branch emits at most one call, and only when detected. -/
lemma branchBusOpen_le (lower : List Char) (d : List String) :
    (branchBusOpen lower d).length ≤ memInd d "redbus_open" := by
  simp only [branchBusOpen]
  split_ifs with h1 h2 <;>
    first
      | (rw [Bool.and_eq_true] at h1
         unfold memInd
         rw [if_pos (contains_true.mp h1.1)]
         simp)
      | (unfold memInd
         rw [if_pos (contains_true.mp h1)]
         simp)
      | simp [memInd]
/-- The seventeen intent names in planner branch order. -/
def plannerIntentNames : List String :=
  ["calculate_gst", "reverse_gst", "gst_breakdown", "compare_rates", "validate_gstin",
   "company_guide", "company_documents", "company_field", "company_process", "bank_guide",
   "vendor_guide", "redbus_search", "redbus_booking", "redbus_offers", "redbus_tracking",
   "redbus_routes", "redbus_open"]

/-- The planner names are pairwise distinct. -/
lemma plannerIntentNames_nodup : plannerIntentNames.Nodup := by decide

/-- The planner emits at most one call per detected intent plus the calculate
fan-out surplus of one call per extra extracted rate. -/
lemma planCalls_length_le (lower : List Char) (d : List String) (e : EntityBag)
    (hD : d.Nodup) (hr : e.gst_rates ≠ []) :
    (planCalls lower d e).length ≤ d.length + e.gst_rates.length := by
  have hsum : ((plannerIntentNames.map (memInd d)).sum) ≤ d.length := by
    rw [sum_memInd]
    exact countP_mem_le d plannerIntentNames plannerIntentNames_nodup hD
  have hexp : (plannerIntentNames.map (memInd d)).sum =
      memInd d "calculate_gst" + (memInd d "reverse_gst" + (memInd d "gst_breakdown" +
      (memInd d "compare_rates" + (memInd d "validate_gstin" + (memInd d "company_guide" +
      (memInd d "company_documents" + (memInd d "company_field" + (memInd d "company_process" +
      (memInd d "bank_guide" + (memInd d "vendor_guide" + (memInd d "redbus_search" +
      (memInd d "redbus_booking" + (memInd d "redbus_offers" + (memInd d "redbus_tracking" +
      (memInd d "redbus_routes" + (memInd d "redbus_open" + 0)))))))))))))))) := by
    simp only [plannerIntentNames, List.map_cons, List.sum_cons, List.map_nil, List.sum_nil]
  have h1 := branchCalc_le d e hr
  have h2 := branchReverse_le d e
  have h3 := branchBreakdown_le d e
  have h4 := branchCompare_le d e
  have h5 := branchValidate_le d e
  have h6 := branchInfoCall_le d "company_guide" "get_company_onboarding_guide"
  have h7 := branchInfoCall_le d "company_documents" "get_company_required_documents"
  have h8 := branchInfoCall_le d "company_field" "get_validation_formats"
  have h9 := branchInfoCall_le d "company_process" "get_onboarding_faq"
  have h10 := branchInfoCall_le d "bank_guide" "get_bank_onboarding_guide"
  have h11 := branchInfoCall_le d "vendor_guide" "get_vendor_onboarding_guide"
  have h12 := branchBusSearch_le d e
  have h13 := branchBusBooking_le d e
  have h14 := branchBusOffers_le d e
  have h15 := branchBusTracking_le d e
  have h16 := branchBusRoutes_le d e
  have h17 := branchBusOpen_le lower d
  have hR : 1 ≤ e.gst_rates.length := List.length_pos.mpr hr
  simp only [planCalls, List.length_append]
  omega

/-- C5 (amended): the number of tool calls never exceeds the number of
detected intents plus the number of extracted rates (so it exceeds
3 × intent-count only through the calculate fan-out over many rates). -/
theorem c5_calls_le_intents_plus_rates (m : LoadedModel) (q : List Char) (r : PQResult)
    (h : processQueryCore m q = Except.ok r)
    (hl : (m.probaOf q).length = m.classes.length)
    (hc : m.classes ≠ []) (hcls : m.classes.Nodup) :
    r.tool_calls.length ≤ r.intents_detected.length + r.entities.gst_rates.length := by
  obtain ⟨hpred, hent, hcalls⟩ := processQueryCore_ok h
  obtain ⟨ints, hok, -, -, hnd⟩ := predictIntents_ok hl hc
  have hints : r.intents_detected = ints := by
    rw [hpred] at hok
    exact Except.ok.inj hok
  have hD : r.intents_detected.Nodup := by
    rw [hints]
    exact hnd hcls
  rw [hcalls, hent]
  exact planCalls_length_le (lowerL q) r.intents_detected (extractEntities q) hD
    (gst_rates_ne_nil q)

/-- Witness for C5 (amended) at a concrete model and multi-rate utterance. -/
theorem c5_witness :
    ∃ r, processQueryCore modelCalcOnly
        ("calculate gst on 200 at 5% and 12%".toList) = Except.ok r ∧
      r.tool_calls.length ≤ r.intents_detected.length + r.entities.gst_rates.length := by
  rcases hE : processQueryCore modelCalcOnly ("calculate gst on 200 at 5% and 12%".toList)
    with e | r
  · have hT : (processQueryCore modelCalcOnly
        ("calculate gst on 200 at 5% and 12%".toList)).isOk = true := by decide
    rw [hE] at hT
    cases hT
  · exact ⟨r, rfl,
      c5_calls_le_intents_plus_rates modelCalcOnly _ r hE (by decide) (by decide) (by decide)⟩

/-! ### Claim C10: scanner lemmas

The percentage regex accepts whitespace between the number and the percent
sign, but the removal step deletes only the exact substrings `<g>%` and
`<g> percent`; the lemmas below track one spaced percentage through the
extraction pipeline. -/

/-- No percentage match can start at a non-digit character. -/
lemma percentMatchAt_none {c : Char} (h : ¬ isDigitA c = true) (l : List Char) :
    percentMatchAt (c :: l) = none := by
  simp [percentMatchAt, List.takeWhile_cons, h]

/-- The fractional-part step never grows the text. -/
lemma fracPart_snd_le (l : List Char) : (fracPart l).2.length ≤ l.length := by
  unfold fracPart
  split
  · dsimp only
    split_ifs
    · exact Nat.le_refl _
    · simp only [List.length_cons]
      exact Nat.le_succ_of_le (List.dropWhile_sublist _).length_le
  · exact Nat.le_refl _

/-- A successful percentage match consumes at least one character. -/
lemma percentMatchAt_lt {l g a : List Char} (h : percentMatchAt l = some (g, a)) :
    a.length < l.length := by
  unfold percentMatchAt at h
  dsimp only at h
  by_cases hd : (l.takeWhile isDigitA).isEmpty = true
  · rw [if_pos hd] at h
    cases h
  · rw [if_neg hd] at h
    have hlt : (l.dropWhile isDigitA).length < l.length := by
      have hsplit := List.takeWhile_append_dropWhile isDigitA l
      have hlen : (l.takeWhile isDigitA).length + (l.dropWhile isDigitA).length = l.length := by
        rw [← List.length_append, hsplit]
      have hpos : 0 < (l.takeWhile isDigitA).length :=
        List.length_pos.mpr (fun h0 => hd (by simp [h0]))
      omega
    have hfr : (fracPart (l.dropWhile isDigitA)).2.length ≤ (l.dropWhile isDigitA).length :=
      fracPart_snd_le _
    have hdw : ((fracPart (l.dropWhile isDigitA)).2.dropWhile isPySpace).length ≤
        (fracPart (l.dropWhile isDigitA)).2.length := (List.dropWhile_sublist _).length_le
    split at h
    · next rest heq =>
      have h3 : rest = a := congrArg Prod.snd (Option.some.inj h)
      have h4 : rest.length = a.length := by rw [h3]
      have hlen2 : rest.length + 1 =
          ((fracPart (l.dropWhile isDigitA)).2.dropWhile isPySpace).length := by
        rw [heq]
        simp
      omega
    · next rest heq =>
      have h3 : rest = a := congrArg Prod.snd (Option.some.inj h)
      have h4 : rest.length = a.length := by rw [h3]
      have hlen2 : rest.length + 7 =
          ((fracPart (l.dropWhile isDigitA)).2.dropWhile isPySpace).length := by
        rw [heq]
        simp
      omega
    · cases h

/-- The fuel argument of the percentage scanner is irrelevant once it covers
the text length. -/
lemma percentScanF_irrel :
    ∀ (f1 f2 : Nat) (l : List Char), l.length ≤ f1 → l.length ≤ f2 →
      percentScanF f1 l = percentScanF f2 l := by
  intro f1
  induction f1 with
  | zero =>
    intro f2 l h1 h2
    have : l = [] := List.length_eq_zero.mp (Nat.le_zero.mp h1)
    subst this
    cases f2 <;> rfl
  | succ f ih =>
    intro f2 l h1 h2
    cases l with
    | nil => cases f2 <;> rfl
    | cons c rest =>
      cases f2 with
      | zero => simp at h2
      | succ f2p =>
        simp only [percentScanF]
        cases hm : percentMatchAt (c :: rest) with
        | none =>
          exact ih f2p rest (by simp at h1; omega) (by simp at h2; omega)
        | some ga =>
          obtain ⟨g, a⟩ := ga
          have hlt := percentMatchAt_lt hm
          simp only [List.length_cons] at h1 h2 hlt
          dsimp only
          rw [ih f2p a (by omega) (by omega)]

/-- Scanner step on a position with no match. -/
lemma percentScan_cons_none {c : Char} {l : List Char}
    (h : percentMatchAt (c :: l) = none) :
    percentScan (c :: l) = percentScan l := by
  unfold percentScan
  simp only [List.length_cons, percentScanF, h]

/-- Scanner step on a matching position (stated for any non-empty text). -/
lemma percentScan_eq_cons {l g a : List Char} (hne : l ≠ [])
    (h : percentMatchAt l = some (g, a)) :
    percentScan l = g :: percentScan a := by
  cases l with
  | nil => exact absurd rfl hne
  | cons c rest =>
    unfold percentScan
    simp only [List.length_cons, percentScanF, h]
    have hlt := percentMatchAt_lt h
    simp only [List.length_cons] at hlt
    rw [percentScanF_irrel rest.length a.length a (by omega) (Nat.le_refl _)]

/-- Scanning skips over a digit-free prefix. -/
lemma percentScan_append_nondigit {p : List Char} (hp : ∀ c ∈ p, ¬ isDigitA c = true) :
    ∀ rest : List Char, percentScan (p ++ rest) = percentScan rest := by
  induction p with
  | nil => intro rest; rfl
  | cons c t ih =>
    intro rest
    rw [List.cons_append,
      percentScan_cons_none (percentMatchAt_none (hp c (List.mem_cons_self c t)) _),
      ih (fun x hx => hp x (List.mem_cons_of_mem c hx))]

/-- A digit-free text has no percentage matches. -/
lemma percentScan_nodigits {s : List Char} (hs : ∀ c ∈ s, ¬ isDigitA c = true) :
    percentScan s = [] := by
  have := percentScan_append_nondigit hs []
  rw [List.append_nil] at this
  rw [this]
  rfl

/-- `takeWhile` over a fully satisfying prefix stopped by one failing
character. -/
lemma takeWhile_all_append {P : Char → Bool} :
    ∀ {n : List Char}, (∀ c ∈ n, P c = true) → ∀ {b : Char}, P b = false →
      ∀ (t : List Char), (n ++ b :: t).takeWhile P = n := by
  intro n
  induction n with
  | nil =>
    intro _ b hb t
    simp [List.takeWhile_cons, hb]
  | cons c m ih =>
    intro hn b hb t
    rw [List.cons_append, List.takeWhile_cons, hn c (List.mem_cons_self c m)]
    rw [ih (fun x hx => hn x (List.mem_cons_of_mem c hx)) hb t]
    simp

/-- `dropWhile` over a fully satisfying prefix stopped by one failing
character. -/
lemma dropWhile_all_append {P : Char → Bool} :
    ∀ {n : List Char}, (∀ c ∈ n, P c = true) → ∀ {b : Char}, P b = false →
      ∀ (t : List Char), (n ++ b :: t).dropWhile P = b :: t := by
  intro n
  induction n with
  | nil =>
    intro _ b hb t
    simp [List.dropWhile_cons, hb]
  | cons c m ih =>
    intro hn b hb t
    rw [List.cons_append, List.dropWhile_cons, hn c (List.mem_cons_self c m)]
    simp only [if_pos]
    exact ih (fun x hx => hn x (List.mem_cons_of_mem c hx)) hb t

/-- The fractional-part step is inert on text not starting with a dot. -/
lemma fracPart_not_dot {c : Char} (h : ¬ c = '.') (r : List Char) :
    fracPart (c :: r) = ([], c :: r) := by
  unfold fracPart
  split
  · next heq =>
    injection heq with h1 _
    exact absurd h1 h
  · rfl

/-- The percentage pattern matches a digit run separated from the percent
sign by a space, capturing just the digits. -/
lemma percentMatchAt_digits {n : List Char} (hn : n ≠ [])
    (hnd : ∀ c ∈ n, isDigitA c = true) (s : List Char) :
    percentMatchAt (n ++ ' ' :: '%' :: s) = some (n, s) := by
  unfold percentMatchAt
  dsimp only
  rw [takeWhile_all_append hnd (by decide) ('%' :: s),
    dropWhile_all_append hnd (by decide) ('%' :: s)]
  rw [if_neg (by simpa [List.isEmpty_iff] using hn)]
  rw [fracPart_not_dot (by decide) ('%' :: s)]
  simp only [List.dropWhile_cons]
  rw [if_pos (show isPySpace ' ' = true from rfl)]
  rw [if_neg (show ¬ isPySpace '%' = true from by decide)]
  simp

/-- No amount match can start at a non-digit character. -/
lemma amountMatchAt_none {c : Char} (h : ¬ isDigitA c = true) (l : List Char) :
    amountMatchAt (c :: l) = none := by
  simp [amountMatchAt, List.takeWhile_cons, h]

/-- Step equation: a comma followed by three digits is consumed. -/
lemma commaChunks_cons_comma {a b c : Char} {r : List Char}
    (hd : (isDigitA a && isDigitA b && isDigitA c) = true) :
    commaChunks (',' :: a :: b :: c :: r)
      = (',' :: a :: b :: c :: (commaChunks r).1, (commaChunks r).2) := by
  simp only [commaChunks, hd, if_true]

/-- Step equation: a comma not followed by three digits stops the chunker. -/
lemma commaChunks_cons_stop {a b c : Char} {r : List Char}
    (hd : ¬ (isDigitA a && isDigitA b && isDigitA c) = true) :
    commaChunks (',' :: a :: b :: c :: r) = ([], ',' :: a :: b :: c :: r) := by
  simp only [commaChunks, if_neg hd]

/-- Any text not starting with a comma-digit-digit-digit block is untouched. -/
lemma commaChunks_default {l : List Char}
    (hl : ∀ (a b c : Char) (r : List Char), l = ',' :: a :: b :: c :: r → False) :
    commaChunks l = ([], l) := by
  unfold commaChunks
  split
  · next a b c r =>
    exact absurd rfl (hl a b c r)
  · rfl

/-- The thousands-separator step never grows the text. -/
lemma commaChunks_snd_le : ∀ l : List Char, (commaChunks l).2.length ≤ l.length := by
  intro l
  induction l using commaChunks.induct with
  | case1 a b c r hd ih =>
    rw [commaChunks_cons_comma hd]
    simp only [List.length_cons]
    omega
  | case2 a b c r hd =>
    rw [commaChunks_cons_stop hd]
  | case3 l hl =>
    rw [commaChunks_default hl]

/-- A successful amount match consumes at least one character. -/
lemma amountMatchAt_lt {l g a : List Char} (h : amountMatchAt l = some (g, a)) :
    a.length < l.length := by
  unfold amountMatchAt at h
  dsimp only at h
  by_cases hd : (l.takeWhile isDigitA).isEmpty = true
  · rw [if_pos hd] at h
    cases h
  · rw [if_neg hd] at h
    have h3 : (fracPart (commaChunks (l.dropWhile isDigitA)).2).2 = a :=
      congrArg Prod.snd (Option.some.inj h)
    have hlt : (l.dropWhile isDigitA).length < l.length := by
      have hsplit := List.takeWhile_append_dropWhile isDigitA l
      have hlen : (l.takeWhile isDigitA).length + (l.dropWhile isDigitA).length = l.length := by
        rw [← List.length_append, hsplit]
      have hpos : 0 < (l.takeWhile isDigitA).length :=
        List.length_pos.mpr (fun h0 => hd (by simp [h0]))
      omega
    have hc := commaChunks_snd_le (l.dropWhile isDigitA)
    have hf := fracPart_snd_le (commaChunks (l.dropWhile isDigitA)).2
    have h4 : (fracPart (commaChunks (l.dropWhile isDigitA)).2).2.length = a.length := by
      rw [h3]
    omega

/-- The fuel argument of the amount scanner is irrelevant once it covers the
text length. -/
lemma amountScanF_irrel :
    ∀ (f1 f2 : Nat) (l : List Char), l.length ≤ f1 → l.length ≤ f2 →
      amountScanF f1 l = amountScanF f2 l := by
  intro f1
  induction f1 with
  | zero =>
    intro f2 l h1 h2
    have : l = [] := List.length_eq_zero.mp (Nat.le_zero.mp h1)
    subst this
    cases f2 <;> rfl
  | succ f ih =>
    intro f2 l h1 h2
    cases l with
    | nil => cases f2 <;> rfl
    | cons c rest =>
      cases f2 with
      | zero => simp at h2
      | succ f2p =>
        simp only [amountScanF]
        cases hm : amountMatchAt (c :: rest) with
        | none =>
          exact ih f2p rest (by simp at h1; omega) (by simp at h2; omega)
        | some ga =>
          obtain ⟨g, a⟩ := ga
          have hlt := amountMatchAt_lt hm
          simp only [List.length_cons] at h1 h2 hlt
          dsimp only
          rw [ih f2p a (by omega) (by omega)]

/-- Amount scanner step on a position with no match. -/
lemma amountScan_cons_none {c : Char} {l : List Char}
    (h : amountMatchAt (c :: l) = none) :
    amountScan (c :: l) = amountScan l := by
  unfold amountScan
  simp only [List.length_cons, amountScanF, h]

/-- Amount scanner step on a matching position. -/
lemma amountScan_eq_cons {l g a : List Char} (hne : l ≠ [])
    (h : amountMatchAt l = some (g, a)) :
    amountScan l = g :: amountScan a := by
  cases l with
  | nil => exact absurd rfl hne
  | cons c rest =>
    unfold amountScan
    simp only [List.length_cons, amountScanF, h]
    have hlt := amountMatchAt_lt h
    simp only [List.length_cons] at hlt
    rw [amountScanF_irrel rest.length a.length a (by omega) (Nat.le_refl _)]

/-- Amount scanning skips over a digit-free prefix. -/
lemma amountScan_append_nondigit {p : List Char} (hp : ∀ c ∈ p, ¬ isDigitA c = true) :
    ∀ rest : List Char, amountScan (p ++ rest) = amountScan rest := by
  induction p with
  | nil => intro rest; rfl
  | cons c t ih =>
    intro rest
    rw [List.cons_append,
      amountScan_cons_none (amountMatchAt_none (hp c (List.mem_cons_self c t)) _),
      ih (fun x hx => hp x (List.mem_cons_of_mem c hx))]

/-- A digit-free text has no amount matches. -/
lemma amountScan_nodigits {s : List Char} (hs : ∀ c ∈ s, ¬ isDigitA c = true) :
    amountScan s = [] := by
  have := amountScan_append_nondigit hs []
  rw [List.append_nil] at this
  rw [this]
  rfl

/-- The amount pattern matches a bare digit run, stopping at a following
space. -/
lemma amountMatchAt_digits {n : List Char} (hn : n ≠ [])
    (hnd : ∀ c ∈ n, isDigitA c = true) (s : List Char) :
    amountMatchAt (n ++ ' ' :: '%' :: s) = some (n, ' ' :: '%' :: s) := by
  unfold amountMatchAt
  dsimp only
  rw [takeWhile_all_append hnd (by decide) ('%' :: s),
    dropWhile_all_append hnd (by decide) ('%' :: s)]
  rw [if_neg (by simpa [List.isEmpty_iff] using hn)]
  rw [commaChunks_default (by intro a b c r h0; cases h0)]
  rw [fracPart_not_dot (by decide) ('%' :: s)]
  simp

/-- Replacement of a pattern that does not occur is the identity. -/
lemma replaceAllF_id :
    ∀ (f : Nat) (s pat : List Char), containsSub s pat = false → replaceAllF f s pat = s := by
  intro f
  induction f with
  | zero => intro s pat _; rfl
  | succ f ih =>
    intro s pat h
    simp only [replaceAllF]
    split_ifs with h1 h2
    · rfl
    · exfalso
      cases s with
      | nil =>
        cases pat with
        | nil => exact h1 rfl
        | cons p ps => simp [startsWithL] at h2
      | cons c t =>
        rw [show containsSub (c :: t) pat
            = (startsWithL (c :: t) pat || containsSub t pat) from rfl] at h
        rw [h2] at h
        cases h
    · cases s with
      | nil => rfl
      | cons c t =>
        have h3 : containsSub t pat = false := by
          rw [show containsSub (c :: t) pat
              = (startsWithL (c :: t) pat || containsSub t pat) from rfl] at h
          exact (Bool.or_eq_false_iff.mp h).2
        show c :: replaceAllF f t pat = c :: t
        rw [ih t pat h3]

/-- `str.replace` with an absent pattern is the identity. -/
lemma replaceAll_id {s pat : List Char} (h : containsSub s pat = false) :
    replaceAll s pat = s :=
  replaceAllF_id s.length s pat h

/-! ### Claim C10 -/

/-- C10: a percentage written with whitespace between the number and the
percent sign is recorded in the rate list, but the removal step — which
deletes only the exact substrings `<g>%` and `<g> percent` — leaves the digits
in the text, so the same number also lands in the extracted amounts list.
Stated for any utterance whose lowering splits as a digit-free prefix, the
digit run, a space, the percent sign, and a digit-free suffix, with no GSTIN
and no exact removable occurrence. -/
theorem c10_spaced_percent_leaks_into_amounts (q p n s : List Char)
    (hlow : lowerL q = p ++ n ++ (' ' :: '%' :: s))
    (hn : n ≠ []) (hnd : ∀ c ∈ n, isDigitA c = true)
    (hp : ∀ c ∈ p, ¬ isDigitA c = true) (hs : ∀ c ∈ s, ¬ isDigitA c = true)
    (hg : gstinSearch none q = none)
    (h1 : containsSub (lowerL q) (n ++ ['%']) = false)
    (h2 : containsSub (lowerL q) (n ++ (' ' :: "percent".toList)) = false) :
    (extractEntities q).gst_rates = [parseDecRat n] ∧
    (extractEntities q).amounts = [parseDecRat n] := by
  have hne : n ++ (' ' :: '%' :: s) ≠ [] := by
    cases n with
    | nil => exact absurd rfl hn
    | cons a t => simp
  have hscan : percentScan (lowerL q) = [n] := by
    rw [hlow, List.append_assoc, percentScan_append_nondigit hp,
      percentScan_eq_cons hne (percentMatchAt_digits hn hnd s), percentScan_nodigits hs]
  have hascan : amountScan (lowerL q) = [n] := by
    rw [hlow, List.append_assoc, amountScan_append_nondigit hp,
      amountScan_eq_cons hne (amountMatchAt_digits hn hnd s),
      amountScan_cons_none (amountMatchAt_none (by decide) _),
      amountScan_cons_none (amountMatchAt_none (by decide) _),
      amountScan_nodigits hs]
  have hparse : parseAmountRat n = parseDecRat n := by
    unfold parseAmountRat
    congr 1
    apply List.filter_eq_self.mpr
    intro c hc
    by_cases h0 : c = ','
    · subst h0
      exact absurd (hnd ',' hc) (by decide)
    · simp [h0]
  simp only [extractEntities, hg]
  rw [hscan]
  constructor
  · simp
  · rw [show ([n].foldl
        (fun acc m => replaceAll (replaceAll acc (m ++ ['%'])) (m ++ (' ' :: "percent".toList)))
        (lowerL q)) = lowerL q by
      rw [List.foldl_cons, List.foldl_nil, replaceAll_id h1, replaceAll_id h2]]
    rw [hascan]
    simp [hparse]

/-- Witness for C10 at `"calculate gst at 12 %"`: the spaced percentage `12`
is recorded as the rate and leaks into the amounts list. -/
theorem c10_witness :
    (extractEntities ("calculate gst at 12 %".toList)).gst_rates = [parseDecRat ['1', '2']] ∧
    (extractEntities ("calculate gst at 12 %".toList)).amounts = [parseDecRat ['1', '2']] :=
  c10_spaced_percent_leaks_into_amounts ("calculate gst at 12 %".toList)
    ("calculate gst at ".toList) ['1', '2'] []
    (by decide) (by decide) (by decide) (by decide) (by decide) (by decide) (by decide) (by decide)
